import Mathlib

/-!
Shallow embedding of the core game engine of the generals-rs server
(`src/core/common.rs`, `src/core/grid.rs`, `src/core/map.rs`,
`src/core/game.rs`), together with theorems settling the spec claims.

Machine integers: a tile's unit count is a Rust `u16`; the additions in
`Tile.incr_units` and in the same-owner branch of `Tile.attack` are
unchecked and can overflow, so they are modelled modulo 2^16.  All the
subtractions on the unit count are guarded in the source and cannot
underflow, so plain truncated `Nat` subtraction coincides with them.
`usize` quantities (indices, turn counter, owned-tile counts) are
modelled as `Nat`.  Rust `HashSet<PlayerId>` becomes `Finset Nat`,
`HashMap<PlayerId, Player>` becomes `Nat → Option Player`.
-/

namespace Generals

/-- PlayerId is an opaque dense integer (`pub type PlayerId = usize`). -/
abbrev PlayerId := Nat

/-- The four tile kinds of `TileKind` in `common.rs`. -/
inductive TileKind where
  | General
  | City
  | Open
  | Mountain
deriving DecidableEq, Repr

/-- A tile of the board, mirroring `struct Tile` in `common.rs`. -/
structure Tile where
  owner : Option PlayerId
  units : Nat
  kind : TileKind
  visible_by : Finset PlayerId
  dirty_for : Finset PlayerId
deriving DecidableEq

/-- `Tile::new()`: a mountain with no owner, no unit, empty sets. -/
def Tile.new : Tile :=
  { owner := none, units := 0, kind := TileKind.Mountain,
    visible_by := ∅, dirty_for := ∅ }

instance : Inhabited Tile := ⟨Tile.new⟩

/-- `Direction` in `common.rs`. -/
inductive Direction where
  | Right
  | Left
  | Up
  | Down
deriving DecidableEq, Repr

/-- `struct Move` in `common.rs` (`from` is a Lean keyword, hence the
field name `from_idx`). -/
structure Move where
  player : PlayerId
  from_idx : Nat
  direction : Direction
deriving DecidableEq, Repr

/-- `enum MoveOutcome` in `common.rs`. -/
inductive MoveOutcome where
  | GeneralCaptured (p : PlayerId)
  | TileCaptured (p : Option PlayerId)
  | StatuQuo
deriving DecidableEq, Repr

/-- `enum InvalidMove` in `common.rs`. -/
inductive InvalidMove where
  | NotEnoughUnits
  | ToInvalidTile
  | FromInvalidTile
  | SourceTileNotOwned
deriving DecidableEq, Repr

deriving instance DecidableEq for Except

/-- `Tile::is_visible_by`. -/
def Tile.is_visible_by (t : Tile) (p : PlayerId) : Bool :=
  decide (p ∈ t.visible_by)

/-- `Tile::is_mountain`. -/
def Tile.is_mountain (t : Tile) : Bool :=
  decide (t.kind = TileKind.Mountain)

/-- `Tile::is_general`. -/
def Tile.is_general (t : Tile) : Bool :=
  decide (t.kind = TileKind.General)

/-- `Tile::is_city`. -/
def Tile.is_city (t : Tile) : Bool :=
  decide (t.kind = TileKind.City)

/-- `Tile::is_open`. -/
def Tile.is_open_tile (t : Tile) : Bool :=
  decide (t.kind = TileKind.Open)

/-- `Tile::hide_from`: remove `p` from `visible_by`; if it was present,
mark the tile dirty for `p`. -/
def Tile.hide_from (t : Tile) (p : PlayerId) : Tile :=
  if p ∈ t.visible_by then
    { t with visible_by := t.visible_by.erase p,
             dirty_for := insert p t.dirty_for }
  else t

/-- `Tile::reveal_to`: add `p` to `visible_by` and to `dirty_for`. -/
def Tile.reveal_to (t : Tile) (p : PlayerId) : Tile :=
  { t with visible_by := insert p t.visible_by,
           dirty_for := insert p t.dirty_for }

/-- `Tile::set_dirty`: insert every currently visible player into
`dirty_for`. -/
def Tile.set_dirty (t : Tile) : Tile :=
  { t with dirty_for := t.dirty_for ∪ t.visible_by }

/-- `Tile::set_units` (mountain-guarded). -/
def Tile.set_units (t : Tile) (u : Nat) : Tile :=
  if t.is_mountain then t
  else Tile.set_dirty { t with units := u }

/-- `Tile::incr_units` (mountain-guarded).  The Rust addition
`self.units += units` on `u16` is unchecked: modelled modulo 2^16. -/
def Tile.incr_units (t : Tile) (u : Nat) : Tile :=
  if t.is_mountain then t
  else Tile.set_dirty { t with units := (t.units + u) % 65536 }

/-- `Tile::make_open`. -/
def Tile.make_open (t : Tile) : Tile :=
  Tile.set_dirty { t with kind := TileKind.Open }

/-- `Tile::make_general`. -/
def Tile.make_general (t : Tile) : Tile :=
  Tile.set_dirty { t with kind := TileKind.General }

/-- `Tile::make_mountain` (called `make_wall` in the older revision of
`common.rs`; the `Update::filtered` code calls it under that name). -/
def Tile.make_mountain (t : Tile) : Tile :=
  Tile.set_dirty { t with kind := TileKind.Mountain }

/-- `Tile::set_owner`: no-op on mountains; otherwise mark dirty for
viewers and for the previous owner, write the new owner, and reveal the
tile to the new owner if there is one. -/
def Tile.set_owner (t : Tile) (p : Option PlayerId) : Tile :=
  if t.is_mountain then t
  else
    let t1 := t.set_dirty
    let t2 := match t.owner with
      | some o => { t1 with dirty_for := insert o t1.dirty_for }
      | none => t1
    let t3 := { t2 with owner := p }
    match p with
    | some o => t3.reveal_to o
    | none => t3

/-- `Tile::is_dirty`. -/
def Tile.is_dirty (t : Tile) : Bool :=
  decide (t.dirty_for ≠ ∅)

/-- `Tile::is_dirty_for`. -/
def Tile.is_dirty_for (t : Tile) (p : PlayerId) : Bool :=
  decide (p ∈ t.dirty_for)

/-- `Tile::set_clean`. -/
def Tile.set_clean (t : Tile) : Tile :=
  { t with dirty_for := ∅ }

/-- `Tile::attack` from `common.rs`.  The Rust method mutates `self`
(the source) and `dst` in place and returns
`Result<MoveOutcome, InvalidMove>`; here it returns the final source
tile, the final destination tile, and the result.  All four error
returns in the source happen before any mutation, so the error cases
return the input tiles unchanged.  The same-owner transfer
`dst.units += self.units - 1` is an unchecked `u16` addition, modelled
modulo 2^16; both subtractions are guarded and cannot underflow. -/
def Tile.attack (src dst : Tile) : Tile × Tile × Except InvalidMove MoveOutcome :=
  if src.is_mountain then (src, dst, Except.error InvalidMove.FromInvalidTile)
  else if dst.is_mountain then (src, dst, Except.error InvalidMove.ToInvalidTile)
  else if src.units < 2 then (src, dst, Except.error InvalidMove.NotEnoughUnits)
  else
    match src.owner with
    | none => (src, dst, Except.error InvalidMove.SourceTileNotOwned)
    | some attacker =>
      let res : Tile × MoveOutcome :=
        match dst.owner with
        | some defender =>
          if defender ≠ attacker then
            if src.units - 1 ≤ dst.units then
              ({ dst with units := dst.units - (src.units - 1) }, MoveOutcome.StatuQuo)
            else
              let d := { dst with units := src.units - 1 - dst.units, owner := src.owner }
              if dst.kind = TileKind.General then
                ({ d with kind := TileKind.City }, MoveOutcome.GeneralCaptured defender)
              else
                (d, MoveOutcome.TileCaptured (some defender))
          else
            ({ dst with units := (dst.units + (src.units - 1)) % 65536 }, MoveOutcome.StatuQuo)
        | none =>
          if src.units - 1 ≤ dst.units then
            ({ dst with units := dst.units - (src.units - 1) }, MoveOutcome.StatuQuo)
          else
            ({ dst with units := src.units - 1 - dst.units, owner := src.owner },
             MoveOutcome.TileCaptured none)
      (Tile.set_dirty { src with units := 1 }, res.1.set_dirty, Except.ok res.2)

/-- The game map: a row-major grid of tiles with cached width and
height (`struct Grid<T>` in `grid.rs` wrapped by `struct Map` in
`map.rs`; the `RefCell` interior mutability is irrelevant in a pure
embedding). -/
structure Map where
  tiles : List Tile
  width : Nat
  height : Nat
deriving DecidableEq

/-- `Grid::is_valid_index`. -/
def Map.is_valid_index (m : Map) (i : Nat) : Bool :=
  decide (i < m.width * m.height)

/-- `Grid::index`: row-major `column + line * width`. -/
def Map.grid_index (m : Map) (column line : Nat) : Nat :=
  column + line * m.width

/-- `Grid::column`. -/
def Map.column (m : Map) (i : Nat) : Nat :=
  i % m.width

/-- `Grid::line`. -/
def Map.line (m : Map) (i : Nat) : Nat :=
  i / m.width

/-- `Grid::up`. -/
def Map.up (m : Map) (i : Nat) : Option Nat :=
  if ¬ m.is_valid_index i then none
  else if m.line i = 0 then none
  else some (m.grid_index (m.column i) (m.line i - 1))

/-- `Grid::down`. -/
def Map.down (m : Map) (i : Nat) : Option Nat :=
  if ¬ m.is_valid_index i then none
  else if m.line i = m.height - 1 then none
  else some (m.grid_index (m.column i) (m.line i + 1))

/-- `Grid::left`. -/
def Map.left (m : Map) (i : Nat) : Option Nat :=
  if ¬ m.is_valid_index i then none
  else if m.column i = 0 then none
  else some (m.grid_index (m.column i - 1) (m.line i))

/-- `Grid::right`. -/
def Map.right (m : Map) (i : Nat) : Option Nat :=
  if ¬ m.is_valid_index i then none
  else if m.column i = m.width - 1 then none
  else some (m.grid_index (m.column i + 1) (m.line i))

/-- `Grid::up_left`. -/
def Map.up_left (m : Map) (i : Nat) : Option Nat :=
  if ¬ m.is_valid_index i then none
  else if m.column i = 0 ∨ m.line i = 0 then none
  else some (m.grid_index (m.column i - 1) (m.line i - 1))

/-- `Grid::up_right`. -/
def Map.up_right (m : Map) (i : Nat) : Option Nat :=
  if ¬ m.is_valid_index i then none
  else if m.column i = m.width - 1 ∨ m.line i = 0 then none
  else some (m.grid_index (m.column i + 1) (m.line i - 1))

/-- `Grid::down_left`. -/
def Map.down_left (m : Map) (i : Nat) : Option Nat :=
  if ¬ m.is_valid_index i then none
  else if m.column i = 0 ∨ m.line i = m.height - 1 then none
  else some (m.grid_index (m.column i - 1) (m.line i + 1))

/-- `Grid::down_right`. -/
def Map.down_right (m : Map) (i : Nat) : Option Nat :=
  if ¬ m.is_valid_index i then none
  else if m.column i = m.width - 1 ∨ m.line i = m.height - 1 then none
  else some (m.grid_index (m.column i + 1) (m.line i + 1))

/-- `Grid::extended_neighbors`: the 8 surrounding positions in order
UL, U, UR, L, R, DL, D, DR, skipping the ones that fall off the grid. -/
def Map.extended_neighbors (m : Map) (i : Nat) : List Nat :=
  [m.up_left i, m.up i, m.up_right i, m.left i, m.right i,
   m.down_left i, m.down i, m.down_right i].filterMap id

/-- Reading the tile at an index (`Grid::get` + `RefCell::borrow`).
All in-source accesses are in bounds; out of bounds we return the
default `Tile.new`. -/
def Map.getTile (m : Map) (i : Nat) : Tile :=
  m.tiles.getD i Tile.new

/-- Writing the tile at an index (the effect of mutating through
`Map::get_mut`). -/
def Map.setTile (m : Map) (i : Nat) (t : Tile) : Map :=
  { m with tiles := m.tiles.set i t }

/-- `Map::enlarge_horizon`: reveal to `player` every non-mountain
extended neighbor of `idx`. -/
def Map.enlarge_horizon (m : Map) (player : PlayerId) (idx : Nat) : Map :=
  (m.extended_neighbors idx).foldl
    (fun acc i =>
      if (acc.getTile i).is_mountain then acc
      else acc.setTile i ((acc.getTile i).reveal_to player))
    m

/-- `Map::owns_extended_neighbor`: whether any extended neighbor of
`idx` is owned by `player`. -/
def Map.owns_extended_neighbor (m : Map) (player : PlayerId) (idx : Nat) : Bool :=
  (m.extended_neighbors idx).any (fun i => decide ((m.getTile i).owner = some player))

/-- `Map::shrink_horizon`: for each non-mountain extended neighbor of
`idx` currently visible by `player`, hide it from `player` unless some
extended neighbor of that tile is owned by `player`. -/
def Map.shrink_horizon (m : Map) (player : PlayerId) (idx : Nat) : Map :=
  (m.extended_neighbors idx).foldl
    (fun acc i =>
      if ¬ (acc.getTile i).is_mountain ∧ (acc.getTile i).is_visible_by player then
        if ¬ acc.owns_extended_neighbor player i then
          acc.setTile i ((acc.getTile i).hide_from player)
        else acc
      else acc)
    m

/-- The visibility half of the general-captured cascade loop body in
`Map::perform_move`: a tile visible by the defeated player is hidden
from them and revealed to the attacker. -/
def cascadeVisibility (defeated attacker : PlayerId) (t : Tile) : Tile :=
  if t.is_visible_by defeated then (t.hide_from defeated).reveal_to attacker
  else t

/-- One tile of the general-captured cascade in `Map::perform_move`:
mountains are skipped; a tile owned by the defeated player goes to the
attacker; then a tile visible by the defeated player is hidden from
them and revealed to the attacker.  The loop body touches no other
tile, so the whole cascade is this function mapped over the grid. -/
def cascadeTile (defeated attacker : PlayerId) (t : Tile) : Tile :=
  if t.is_mountain then t
  else
    cascadeVisibility defeated attacker
      (if t.owner = some defeated then t.set_owner (some attacker) else t)

/-- The `MoveOutcome::GeneralCaptured` arm of `Map::perform_move`:
iterate all non-mountain tiles, transferring ownership and visibility
from the defeated player to the attacker. -/
def Map.general_captured_cascade (m : Map) (defeated attacker : PlayerId) : Map :=
  { m with tiles := m.tiles.map (cascadeTile defeated attacker) }

/-- The same cascade as an explicit left-to-right fold over a list of
tile indices, used to state that the outcome of the iteration does not
depend on the iteration order. -/
def Map.cascade_fold (m : Map) (defeated attacker : PlayerId) (idxs : List Nat) : Map :=
  idxs.foldl (fun acc i => acc.setTile i (cascadeTile defeated attacker (acc.getTile i))) m

/-- Writing back the two tiles mutated by `Tile::attack` (in the Rust
code the mutation happens in place through the two `RefMut`s). -/
def Map.attack_write (m : Map) (fromIdx dstIdx : Nat) : Map :=
  let r := (m.getTile fromIdx).attack (m.getTile dstIdx)
  (m.setTile fromIdx r.1).setTile dstIdx r.2.1

/-- Neighbor dispatch used in `Map::perform_move` (the `match
mv.direction` block selecting `Grid::right` / `left` / `up` / `down`). -/
def Map.neighbor (m : Map) (i : Nat) : Direction → Option Nat
  | Direction.Right => m.right i
  | Direction.Left => m.left i
  | Direction.Up => m.up i
  | Direction.Down => m.down i

/-- `Map::perform_move` from `map.rs`.  The Rust method mutates the map
and returns `Result<(), InvalidMove>`; here it returns the final map
together with `none` on success or `some e` on error.  Every early
error return happens before any mutation (and `Tile::attack` mutates
nothing when it fails), so the error cases carry the map unchanged. -/
def Map.perform_move (m : Map) (mv : Move) : Map × Option InvalidMove :=
  if ¬ m.is_valid_index mv.from_idx then (m, some InvalidMove.FromInvalidTile)
  else
    match m.neighbor mv.from_idx mv.direction with
    | none => (m, some InvalidMove.ToInvalidTile)
    | some dst_idx =>
      match (m.getTile mv.from_idx).owner with
      | none => (m, some InvalidMove.SourceTileNotOwned)
      | some player =>
        if player ≠ mv.player then (m, some InvalidMove.SourceTileNotOwned)
        else
          let r := (m.getTile mv.from_idx).attack (m.getTile dst_idx)
          let m1 := m.attack_write mv.from_idx dst_idx
          match r.2.2 with
          | Except.error e => (m1, some e)
          | Except.ok outcome =>
            match outcome with
            | MoveOutcome.GeneralCaptured defeated =>
              (m1.general_captured_cascade defeated mv.player, none)
            | MoveOutcome.TileCaptured captured =>
              let m2 := match captured with
                | some defeated => m1.shrink_horizon defeated dst_idx
                | none => m1
              (m2.enlarge_horizon mv.player dst_idx, none)
            | MoveOutcome.StatuQuo => (m1, none)

/-- `Map::reinforce`: every non-mountain tile gains one unit when it is
owned and this is a full reinforcement round, or it is a general, or it
is an occupied city. -/
def Map.reinforce (m : Map) (reinforce_all_tiles : Bool) : Map :=
  { m with tiles := m.tiles.map (fun t =>
      if t.is_mountain then t
      else if (t.owner.isSome && reinforce_all_tiles) || t.is_general
              || (t.is_city && t.owner.isSome) then t.incr_units 1
      else t) }

/-- One public `Map` mutation: a `perform_move` (successful or not) or
a reinforcement sweep. -/
def MapStep (m m1 : Map) : Prop :=
  (∃ mv, (m.perform_move mv).1 = m1) ∨ (∃ b, m1 = m.reinforce b)

/-- Reachability by any sequence of public `Map` operations. -/
def MapReachable : Map → Map → Prop :=
  Relation.ReflTransGen MapStep

/-- Invariant I1 of the spec: an owned tile is not a mountain and has
at least one unit. -/
def Map.I1 (m : Map) : Prop :=
  ∀ t ∈ m.tiles, t.owner ≠ none → (t.kind ≠ TileKind.Mountain ∧ 1 ≤ t.units)

/-- The part of invariant I1 that the code actually preserves: an owned
tile is never a mountain. -/
def Map.OwnedNotMountain (m : Map) : Prop :=
  ∀ t ∈ m.tiles, t.owner ≠ none → t.kind ≠ TileKind.Mountain

/-- The tile-level form of the preserved half of invariant I1. -/
def TileOK (t : Tile) : Prop := t.owner ≠ none → t.kind ≠ TileKind.Mountain

/-- Invariant I2 of the spec: the owner of a tile sees it (stated with
`Option.all` so that it is decidable on concrete maps). -/
def Map.I2 (m : Map) : Prop :=
  ∀ t ∈ m.tiles, (t.owner.all fun p => t.is_visible_by p) = true

instance (m : Map) : Decidable m.I1 := by
  unfold Map.I1; infer_instance

instance (m : Map) : Decidable m.OwnedNotMountain := by
  unfold Map.OwnedNotMountain; infer_instance

instance (m : Map) : Decidable m.I2 := by
  unfold Map.I2; infer_instance

/-- `struct Player` in `common.rs`. -/
structure Player where
  id : PlayerId
  owned_tiles : Nat
  defeated_at : Option Nat
deriving DecidableEq, Repr

/-- `Player::defeated`. -/
def Player.defeated (p : Player) : Bool :=
  p.defeated_at.isSome

/-- `Player::can_move`. -/
def Player.can_move (p : Player) : Bool :=
  !p.defeated && decide (0 < p.owned_tiles)

/-- `struct Game` in `game.rs`; the `HashMap<PlayerId, Player>` is
modelled as a partial function. -/
structure Game where
  map : Map
  players : PlayerId → Option Player
  turn : Nat

/-- `struct Update` in `game.rs`. -/
structure Update where
  turn : Nat
  width : Nat
  height : Nat
  players : PlayerId → Option Player
  tiles : List (Nat × Tile)
  is_initial_update : Bool

/-- `Game::reinforce`: full reinforcement on turns divisible by 50,
generals-and-cities reinforcement on other even turns. -/
def Game.reinforce (g : Game) : Game :=
  if g.turn % 50 = 0 then { g with map := g.map.reinforce true }
  else if g.turn % 2 = 0 then { g with map := g.map.reinforce false }
  else g

/-- `Game::incr_turn` (the tick): increment the turn, then reinforce. -/
def Game.incr_turn (g : Game) : Game :=
  Game.reinforce { g with turn := g.turn + 1 }

/-- `Game::perform_move`: unknown players and players that cannot move
are ignored, and `Map` errors are swallowed. -/
def Game.perform_move (g : Game) (mv : Move) : Game :=
  match g.players mv.player with
  | none => g
  | some player =>
    if ¬ player.can_move then g
    else { g with map := (g.map.perform_move mv).1 }

/-- One iteration of the sweep in `Game::get_update`: recount the
owner's `owned_tiles` (the Rust code panics if the owner is not a known
player, modelled as `none`), then collect the tile if the update is the
first of the game or the tile is dirty, cleaning the collected copy in
the map.  The accumulator carries the player recounts, the collected
`(index, tile)` pairs, and the tiles of the map rebuilt so far. -/
def renderStep (first : Bool)
    (acc : Option ((PlayerId → Option Player) × List (Nat × Tile) × List Tile))
    (it : Nat × Tile) :
    Option ((PlayerId → Option Player) × List (Nat × Tile) × List Tile) :=
  match acc, it with
  | none, _ => none
  | some (ps, upd, ts), (i, t) =>
    match (match t.owner with
           | none => some ps
           | some o =>
             match ps o with
             | none => none
             | some pl =>
               some (Function.update ps o
                 (some { pl with owned_tiles := pl.owned_tiles + 1 }))) with
    | none => none
    | some ps1 =>
      if first || t.is_dirty then
        some (ps1, upd ++ [(i, t)], ts ++ [t.set_clean])
      else
        some (ps1, upd, ts ++ [t])

/-- `Game::get_update`: zero every player's `owned_tiles`, sweep the
map recounting owners and collecting the dirty tiles (all tiles on the
first turn), mark every undefeated player left with zero tiles as
defeated at the current turn, and return the updated game and the
update.  The Rust code panics when a tile is owned by an unknown
player; that path returns `none`. -/
def Game.get_update (g : Game) : Option (Game × Update) :=
  let first : Bool := decide (g.turn = 0)
  let players0 : PlayerId → Option Player :=
    fun p => (g.players p).map (fun pl => { pl with owned_tiles := 0 })
  match (g.map.tiles.enum).foldl (renderStep first) (some (players0, [], [])) with
  | none => none
  | some (ps1, upd, ts) =>
    let ps2 : PlayerId → Option Player :=
      fun p => (ps1 p).map (fun pl =>
        if pl.owned_tiles = 0 ∧ pl.defeated_at = none then
          { pl with defeated_at := some g.turn }
        else pl)
    some ({ map := { tiles := ts, width := g.map.width, height := g.map.height },
            players := ps2, turn := g.turn },
          { turn := g.turn, width := g.map.width, height := g.map.height,
            players := ps2, tiles := upd, is_initial_update := first })

/-- The first `if` of the fog transform in `Update::filtered`:
`if t.is_general() { t.make_open(); t.set_owner(None); }`. -/
def fogGeneral (t : Tile) : Tile :=
  if t.is_general then (t.make_open).set_owner none else t

/-- The second `if` of the fog transform in `Update::filtered`:
`if t.is_fortress() { t.make_wall(); }` (a city becomes a mountain). -/
def fogCity (t : Tile) : Tile :=
  if t.is_city then t.make_mountain else t

/-- The per-tile fog transform of `Update::filtered`: a tile the player
cannot see has its units zeroed, then a general is turned into an
unowned open tile, then a city is turned into a mountain. -/
def fogTile (player : PlayerId) (t : Tile) : Tile :=
  if ¬ t.is_visible_by player then fogCity (fogGeneral (t.set_units 0))
  else t

/-- `Update::filtered` from `game.rs`: keep the tiles that are dirty
for the player (or all of them on the initial update), and apply the
fog transform to the kept tiles the player cannot see (`is_fortress` /
`make_wall` in the source are the older names of `is_city` /
`make_mountain`). -/
def Update.filtered (u : Update) (player : PlayerId) : Update :=
  let kept := u.tiles.filter (fun it => it.2.is_dirty_for player || u.is_initial_update)
  { u with tiles := kept.map (fun it => (it.1, fogTile player it.2)) }

/-- The number of tiles of a map owned by a player (the quantity
recounted by `Game::get_update`). -/
def Map.owned_count (m : Map) (p : PlayerId) : Nat :=
  (m.tiles.filter (fun t => decide (t.owner = some p))).length

/-- The number of (index, tile) pairs of a sweep list owned by `p`
(the running recount of `Game::get_update`). -/
def pairOwnedCount (l : List (Nat × Tile)) (p : PlayerId) : Nat :=
  (l.filter (fun it => decide (it.2.owner = some p))).length

/-- Tile literal builder for the concrete boards below. -/
def tileOf (o : Option PlayerId) (u : Nat) (k : TileKind)
    (vis dirty : List PlayerId) : Tile :=
  { owner := o, units := u, kind := k,
    visible_by := vis.toFinset, dirty_for := dirty.toFinset }

/-- A 1x2 board for the tie-defense scenario: player 1 with 3 units
next to player 2 with exactly 2 units (the attacking force). -/
def tieMap : Map :=
  { width := 2, height := 1, tiles :=
      [tileOf (some 1) 3 TileKind.Open [1, 2] [],
       tileOf (some 2) 2 TileKind.Open [1, 2] []] }

/-- The move of player 1 attacking right on `tieMap`. -/
def tieMove : Move := { player := 1, from_idx := 0, direction := Direction.Right }

/-- A 1x3 board where player 2 owns tiles 1 and 2 and player 1 is
about to capture tile 1, isolating player 2's tile 2 from every tile
player 2 still owns. -/
def isoMap : Map :=
  { width := 3, height := 1, tiles :=
      [tileOf (some 1) 3 TileKind.Open [1, 2] [],
       tileOf (some 2) 1 TileKind.Open [1, 2] [],
       tileOf (some 2) 1 TileKind.Open [2] []] }

/-- The move of player 1 attacking right on `isoMap`. -/
def isoMove : Move := { player := 1, from_idx := 0, direction := Direction.Right }

/-- A 2x2 board where player 1 captures player 2's general; the
mountain at index 2 abnormally has player 2 in its `visible_by`. -/
def capMap : Map :=
  { width := 2, height := 2, tiles :=
      [tileOf (some 1) 3 TileKind.Open [1, 2] [],
       tileOf (some 2) 1 TileKind.General [1, 2] [],
       tileOf none 0 TileKind.Mountain [2] [],
       tileOf (some 2) 1 TileKind.Open [2] []] }

/-- The move of player 1 capturing the general on `capMap`. -/
def capMove : Move := { player := 1, from_idx := 0, direction := Direction.Right }

/-- A 1x2 board whose first tile is a mountain. -/
def mountainMap : Map :=
  { width := 2, height := 1, tiles := [Tile.new, tileOf none 0 TileKind.Open [] []] }

/-- A 1x1 board holding a single owned general with one unit. -/
def generalBoard : Map :=
  { width := 1, height := 1, tiles := [tileOf (some 0) 1 TileKind.General [] []] }

/-- The `generalBoard` after 65534 full reinforcement sweeps: the
general sits at 65535 units, the `u16` maximum. -/
def maxedBoard : Map :=
  (fun m => Map.reinforce m true)^[65534] generalBoard

/-- The one-tile board whose owned general holds `u` units. -/
def soloGeneral (u : Nat) : Map :=
  { width := 1, height := 1, tiles := [tileOf (some 0) u TileKind.General [] []] }

/-- A game whose only owned tile is dirty for player 2 but invisible to
player 2 (player 2 was just pushed off this part of the map). -/
def fogGame : Game :=
  { map := { width := 2, height := 1, tiles :=
      [tileOf (some 1) 5 TileKind.Open [1] [2],
       tileOf none 0 TileKind.Open [] []] },
    players := fun p =>
      if p = 1 then some { id := 1, owned_tiles := 1, defeated_at := none }
      else if p = 2 then some { id := 2, owned_tiles := 0, defeated_at := none }
      else none,
    turn := 3 }

/-- A game used to exercise the recount of `Game::get_update`: player 1
owns the only owned tile, player 2 owns nothing and is undefeated. -/
def recountGame : Game :=
  { map := { width := 2, height := 1, tiles :=
      [tileOf (some 1) 5 TileKind.Open [1] [],
       tileOf none 0 TileKind.Open [] []] },
    players := fun p =>
      if p = 1 then some { id := 1, owned_tiles := 0, defeated_at := none }
      else if p = 2 then some { id := 2, owned_tiles := 7, defeated_at := none }
      else none,
    turn := 4 }

/-- A game holding a single owned general at the `u16` maximum of
65535 units, one tick before an even turn. -/
def wrapGame : Game :=
  { map := { width := 1, height := 1,
             tiles := [tileOf (some 0) 65535 TileKind.General [] []] },
    players := fun p =>
      if p = 0 then some { id := 0, owned_tiles := 1, defeated_at := none } else none,
    turn := 1 }

/-- A game holding a single owned general with ten units, one tick
before an even turn. -/
def tickGame : Game :=
  { map := { width := 1, height := 1,
             tiles := [tileOf (some 0) 10 TileKind.General [] []] },
    players := fun p =>
      if p = 0 then some { id := 0, owned_tiles := 1, defeated_at := none } else none,
    turn := 1 }

/-- A standalone update with one dirty visible tile, used to exercise
`Update::filtered`. -/
def plainUpdate : Update :=
  { turn := 3, width := 2, height := 1, players := fun _ => none,
    tiles := [(0, tileOf (some 1) 5 TileKind.Open [1, 2] [1, 2])],
    is_initial_update := false }

lemma Tile.set_dirty_owner (t : Tile) : t.set_dirty.owner = t.owner := rfl

lemma Tile.set_dirty_units (t : Tile) : t.set_dirty.units = t.units := rfl

lemma Tile.set_dirty_kind (t : Tile) : t.set_dirty.kind = t.kind := rfl

lemma Tile.set_dirty_visible (t : Tile) : t.set_dirty.visible_by = t.visible_by := rfl

lemma Tile.is_mountain_false {t : Tile} :
    t.is_mountain = false ↔ t.kind ≠ TileKind.Mountain := by
  simp [Tile.is_mountain]

lemma Tile.is_mountain_true {t : Tile} :
    t.is_mountain = true ↔ t.kind = TileKind.Mountain := by
  simp [Tile.is_mountain]

lemma Tile.hide_from_owner (t : Tile) (p : PlayerId) : (t.hide_from p).owner = t.owner := by
  unfold Tile.hide_from; split <;> rfl

lemma Tile.hide_from_units (t : Tile) (p : PlayerId) : (t.hide_from p).units = t.units := by
  unfold Tile.hide_from; split <;> rfl

lemma Tile.hide_from_kind (t : Tile) (p : PlayerId) : (t.hide_from p).kind = t.kind := by
  unfold Tile.hide_from; split <;> rfl

lemma Tile.reveal_to_owner (t : Tile) (p : PlayerId) : (t.reveal_to p).owner = t.owner := rfl

lemma Tile.reveal_to_units (t : Tile) (p : PlayerId) : (t.reveal_to p).units = t.units := rfl

lemma Tile.reveal_to_kind (t : Tile) (p : PlayerId) : (t.reveal_to p).kind = t.kind := rfl

lemma Tile.reveal_to_visible (t : Tile) (p : PlayerId) :
    (t.reveal_to p).visible_by = insert p t.visible_by := rfl

lemma Tile.set_owner_kind (t : Tile) (p : Option PlayerId) :
    (t.set_owner p).kind = t.kind := by
  unfold Tile.set_owner
  split
  · rfl
  · cases t.owner <;> cases p <;> rfl

lemma Tile.set_owner_units (t : Tile) (p : Option PlayerId) :
    (t.set_owner p).units = t.units := by
  unfold Tile.set_owner
  split
  · rfl
  · cases t.owner <;> cases p <;> rfl

lemma Tile.set_owner_owner_of_not_mountain (t : Tile) (p : Option PlayerId)
    (h : t.is_mountain = false) : (t.set_owner p).owner = p := by
  unfold Tile.set_owner
  rw [h]
  cases t.owner <;> cases p <;> rfl

lemma Tile.incr_units_owner (t : Tile) (u : Nat) : (t.incr_units u).owner = t.owner := by
  unfold Tile.incr_units; split <;> rfl

lemma Tile.incr_units_kind (t : Tile) (u : Nat) : (t.incr_units u).kind = t.kind := by
  unfold Tile.incr_units; split <;> rfl

lemma Tile.incr_units_visible (t : Tile) (u : Nat) :
    (t.incr_units u).visible_by = t.visible_by := by
  unfold Tile.incr_units; split <;> rfl

/-- C1 (amended).  Any call to `Tile.attack` whose source is not a
mountain, whose destination is not a mountain, whose source has at
least two units and is owned by `a`, succeeds; with `A = src.units - 1`
the source ends with exactly one unit and the destination is mutated
per the spec table, except that the same-owner transfer adds `A`
modulo 2^16 (the destination units are a `u16` and the addition is
unchecked). -/
theorem attack_resolution_table (src dst : Tile) (a : PlayerId)
    (hs : src.kind ≠ TileKind.Mountain) (hd : dst.kind ≠ TileKind.Mountain)
    (hu : 2 ≤ src.units) (ho : src.owner = some a) :
    ∃ src1 dst1 out, src.attack dst = (src1, dst1, Except.ok out) ∧
      src1.units = 1 ∧
      (dst.owner = some a →
        dst1.units = (dst.units + (src.units - 1)) % 65536 ∧
        dst1.owner = some a ∧ dst1.kind = dst.kind ∧ out = MoveOutcome.StatuQuo) ∧
      (∀ b, dst.owner = some b → b ≠ a →
        ((src.units - 1 ≤ dst.units →
            dst1.units = dst.units - (src.units - 1) ∧ dst1.owner = some b ∧
            dst1.kind = dst.kind ∧ out = MoveOutcome.StatuQuo) ∧
         (dst.units < src.units - 1 → dst.kind = TileKind.General →
            dst1.units = src.units - 1 - dst.units ∧ dst1.owner = some a ∧
            dst1.kind = TileKind.City ∧ out = MoveOutcome.GeneralCaptured b) ∧
         (dst.units < src.units - 1 → dst.kind ≠ TileKind.General →
            dst1.units = src.units - 1 - dst.units ∧ dst1.owner = some a ∧
            dst1.kind = dst.kind ∧ out = MoveOutcome.TileCaptured (some b)))) ∧
      (dst.owner = none →
        ((src.units - 1 ≤ dst.units →
            dst1.units = dst.units - (src.units - 1) ∧ dst1.owner = none ∧
            dst1.kind = dst.kind ∧ out = MoveOutcome.StatuQuo) ∧
         (dst.units < src.units - 1 →
            dst1.units = src.units - 1 - dst.units ∧ dst1.owner = some a ∧
            dst1.kind = dst.kind ∧ out = MoveOutcome.TileCaptured none))) := by
  have hs' : src.is_mountain = false := Tile.is_mountain_false.mpr hs
  have hd' : dst.is_mountain = false := Tile.is_mountain_false.mpr hd
  have hu' : ¬ src.units < 2 := by omega
  rcases hdo : dst.owner with _ | b
  · by_cases hcmp : src.units - 1 ≤ dst.units
    · refine ⟨Tile.set_dirty { src with units := 1 },
              Tile.set_dirty { dst with units := dst.units - (src.units - 1) },
              MoveOutcome.StatuQuo, ?_, rfl, ?_, ?_, ?_⟩
      · simp [Tile.attack, hs', hd', hu', ho, hdo, hcmp]
      · intro h; exact absurd h (by simp)
      · intro b h; exact absurd h (by simp)
      · intro _
        exact ⟨fun _ => ⟨rfl, by simp [Tile.set_dirty_owner, hdo], rfl, rfl⟩,
               fun h => absurd hcmp (by omega)⟩
    · refine ⟨Tile.set_dirty { src with units := 1 },
              Tile.set_dirty { dst with units := src.units - 1 - dst.units, owner := src.owner },
              MoveOutcome.TileCaptured none, ?_, rfl, ?_, ?_, ?_⟩
      · simp [Tile.attack, hs', hd', hu', ho, hdo, hcmp]
      · intro h; exact absurd h (by simp)
      · intro b h; exact absurd h (by simp)
      · intro _
        exact ⟨fun h => absurd h hcmp,
               fun _ => ⟨rfl, by simp [Tile.set_dirty_owner, ho], rfl, rfl⟩⟩
  · by_cases hba : b = a
    · subst hba
      refine ⟨Tile.set_dirty { src with units := 1 },
              Tile.set_dirty { dst with units := (dst.units + (src.units - 1)) % 65536 },
              MoveOutcome.StatuQuo, ?_, rfl, ?_, ?_, ?_⟩
      · simp [Tile.attack, hs', hd', hu', ho, hdo]
      · intro _; exact ⟨rfl, by simp [Tile.set_dirty_owner, hdo], rfl, rfl⟩
      · intro c hc hca
        obtain rfl := (Option.some_injective _ hc).symm
        exact absurd rfl hca
      · intro h; exact absurd h (by simp)
    · by_cases hcmp : src.units - 1 ≤ dst.units
      · refine ⟨Tile.set_dirty { src with units := 1 },
                Tile.set_dirty { dst with units := dst.units - (src.units - 1) },
                MoveOutcome.StatuQuo, ?_, rfl, ?_, ?_, ?_⟩
        · simp [Tile.attack, hs', hd', hu', ho, hdo, hba, hcmp]
        · intro h
          exact absurd (Option.some_injective _ h) hba
        · intro c hc hca
          obtain rfl := (Option.some_injective _ hc).symm
          exact ⟨fun _ => ⟨rfl, by simp [Tile.set_dirty_owner, hdo], rfl, rfl⟩,
                 fun h _ => absurd hcmp (by omega),
                 fun h _ => absurd hcmp (by omega)⟩
        · intro h; exact absurd h (by simp)
      · by_cases hknd : dst.kind = TileKind.General
        · refine ⟨Tile.set_dirty { src with units := 1 },
                  Tile.set_dirty { dst with units := src.units - 1 - dst.units, owner := src.owner, kind := TileKind.City },
                  MoveOutcome.GeneralCaptured b, ?_, rfl, ?_, ?_, ?_⟩
          · simp [Tile.attack, hs', hd', hu', ho, hdo, hba, hcmp, hknd]
          · intro h
            exact absurd (Option.some_injective _ h) hba
          · intro c hc hca
            obtain rfl := (Option.some_injective _ hc).symm
            exact ⟨fun h => absurd h hcmp,
                   fun _ _ => ⟨rfl, by simp [Tile.set_dirty_owner, ho], rfl, rfl⟩,
                   fun _ h => absurd hknd h⟩
          · intro h; exact absurd h (by simp)
        · refine ⟨Tile.set_dirty { src with units := 1 },
                  Tile.set_dirty { dst with units := src.units - 1 - dst.units, owner := src.owner },
                  MoveOutcome.TileCaptured (some b), ?_, rfl, ?_, ?_, ?_⟩
          · simp [Tile.attack, hs', hd', hu', ho, hdo, hba, hcmp, hknd]
          · intro h
            exact absurd (Option.some_injective _ h) hba
          · intro c hc hca
            obtain rfl := (Option.some_injective _ hc).symm
            exact ⟨fun h => absurd h hcmp,
                   fun _ h => absurd h hknd,
                   fun _ _ => ⟨rfl, by simp [Tile.set_dirty_owner, ho], rfl, rfl⟩⟩
          · intro h; exact absurd h (by simp)

/-- C1 counterexample.  A successful same-owner transfer onto a tile at
65535 units leaves the destination at 0 units: it does not increase its
units by `A = src.units - 1` (that would give 65536, which a `u16`
cannot hold). -/
theorem attack_transfer_overflow_counterexample :
    ((tileOf (some 0) 2 TileKind.Open [] []).attack
        (tileOf (some 0) 65535 TileKind.Open [] [])).2.2
      = Except.ok MoveOutcome.StatuQuo ∧
    ((tileOf (some 0) 2 TileKind.Open [] []).attack
        (tileOf (some 0) 65535 TileKind.Open [] [])).2.1.units = 0 ∧
    (tileOf (some 0) 65535 TileKind.Open [] []).units +
        ((tileOf (some 0) 2 TileKind.Open [] []).units - 1) = 65536 := by
  decide

/-- Witness for `attack_resolution_table` at the capture-city scenario
of the spec (10 units onto an enemy city with 8). -/
theorem attack_resolution_table_witness :
    ∃ src1 dst1 out,
      (tileOf (some 2) 10 TileKind.Open [] []).attack
          (tileOf (some 1) 8 TileKind.City [] []) = (src1, dst1, Except.ok out) ∧
      src1.units = 1 ∧ dst1.units = 1 ∧ dst1.owner = some 2 ∧
      out = MoveOutcome.TileCaptured (some 1) := by
  obtain ⟨s1, d1, o, h1, h2, _, h4, _⟩ :=
    attack_resolution_table (tileOf (some 2) 10 TileKind.Open [] [])
      (tileOf (some 1) 8 TileKind.City [] []) 2
      (by decide) (by decide) (by decide) rfl
  obtain ⟨_, _, h7⟩ := h4 1 rfl (by decide)
  obtain ⟨hu, how, hk, hout⟩ := h7 (by decide) (by decide)
  exact ⟨s1, d1, o, h1, h2, by rw [hu]; decide, how, hout⟩

lemma list_set_getD_self {α : Type} (l : List α) (i : Nat) (d : α) :
    l.set i (l.getD i d) = l := by
  rcases Nat.lt_or_ge i l.length with h | h
  · apply List.ext_getElem (by simp)
    intro j hj hj2
    rw [List.getElem_set]
    split
    · subst j; rw [List.getD_eq_getElem l d h]
    · rfl
  · rw [List.set_eq_of_length_le h]

lemma Map.setTile_getTile_self (m : Map) (i : Nat) : m.setTile i (m.getTile i) = m := by
  show { m with tiles := m.tiles.set i (m.tiles.getD i Tile.new) } = m
  rw [list_set_getD_self]

lemma attack_error_leaves_tiles (src dst : Tile) (e : InvalidMove)
    (h : (src.attack dst).2.2 = Except.error e) :
    (src.attack dst).1 = src ∧ (src.attack dst).2.1 = dst := by
  unfold Tile.attack at h ⊢
  rcases ho : src.owner with _ | a
  · split_ifs at h ⊢ <;> simp_all
  · split_ifs at h ⊢ <;> simp_all

lemma attack_write_of_error (m : Map) (i j : Nat) (e : InvalidMove)
    (h : ((m.getTile i).attack (m.getTile j)).2.2 = Except.error e) :
    m.attack_write i j = m := by
  obtain ⟨h1, h2⟩ := attack_error_leaves_tiles _ _ _ h
  show (m.setTile i ((m.getTile i).attack (m.getTile j)).1).setTile j
      ((m.getTile i).attack (m.getTile j)).2.1 = m
  rw [h1, h2, Map.setTile_getTile_self, Map.setTile_getTile_self]

/-- C8.  Whenever `Map.perform_move` reports an error, the map is left
exactly as it was: every early return precedes the mutation, and
`Tile.attack` fails before touching either tile. -/
theorem perform_move_error_atomic (m : Map) (mv : Move) (e : InvalidMove)
    (h : (m.perform_move mv).2 = some e) : (m.perform_move mv).1 = m := by
  unfold Map.perform_move at h ⊢
  by_cases hv : m.is_valid_index mv.from_idx = true
  all_goals simp only [hv, Bool.not_eq_true, not_true_eq_false, not_false_eq_true,
    if_true, if_false, ite_true, ite_false, Bool.false_eq_true] at h ⊢
  rcases hn : m.neighbor mv.from_idx mv.direction with _ | dst_idx
  all_goals simp only [hn] at h ⊢
  rcases ho : (m.getTile mv.from_idx).owner with _ | player
  all_goals simp only [ho] at h ⊢
  by_cases hp : player = mv.player
  all_goals simp only [hp, ne_eq, not_true_eq_false, not_false_eq_true,
    if_true, if_false, ite_true, ite_false, ite_not] at h ⊢
  rcases hr : ((m.getTile mv.from_idx).attack (m.getTile dst_idx)).2.2 with e1 | outcome
  all_goals simp only [hr] at h ⊢
  · exact attack_write_of_error m _ _ e1 hr
  · rcases outcome with d | c | _ <;> simp_all

/-- Witness for `perform_move_error_atomic`: a move off the right edge
of the board errors with `ToInvalidTile` and leaves the map intact. -/
theorem perform_move_error_atomic_witness :
    (mountainMap.perform_move
        { player := 1, from_idx := 1, direction := Direction.Right }).2
      = some InvalidMove.ToInvalidTile ∧
    (mountainMap.perform_move
        { player := 1, from_idx := 1, direction := Direction.Right }).1
      = mountainMap :=
  ⟨by decide,
   perform_move_error_atomic mountainMap
     { player := 1, from_idx := 1, direction := Direction.Right }
     InvalidMove.ToInvalidTile (by decide)⟩

lemma attack_mountain_src (src dst : Tile) (h : src.kind = TileKind.Mountain) :
    src.attack dst = (src, dst, Except.error InvalidMove.FromInvalidTile) := by
  have : src.is_mountain = true := Tile.is_mountain_true.mpr h
  simp [Tile.attack, this]

/-- C9 (amended).  A move whose source index is on the grid but whose
source tile is a mountain is always rejected with the map unchanged,
but the error is `ToInvalidTile` when the destination falls off the
grid, `FromInvalidTile` only in the vacuous case where the mountain is
owned by the mover, and otherwise `SourceTileNotOwned`: the ownership
check of `Map::perform_move` runs before `Tile::attack`'s mountain
check, so an (always unowned) mountain source is reported as
`SourceTileNotOwned`, not as `FromInvalidTile`. -/
theorem mountain_source_rejected (m : Map) (mv : Move)
    (hv : m.is_valid_index mv.from_idx = true)
    (hk : (m.getTile mv.from_idx).kind = TileKind.Mountain) :
    (m.perform_move mv).1 = m ∧
    (m.perform_move mv).2 =
      some (match m.neighbor mv.from_idx mv.direction with
            | none => InvalidMove.ToInvalidTile
            | some _ =>
              if (m.getTile mv.from_idx).owner = some mv.player then
                InvalidMove.FromInvalidTile
              else InvalidMove.SourceTileNotOwned) := by
  unfold Map.perform_move
  simp only [hv, not_true_eq_false, if_false, ite_false, Bool.false_eq_true]
  rcases hn : m.neighbor mv.from_idx mv.direction with _ | dst_idx
  · simp only [hn]
    exact ⟨trivial, trivial⟩
  · rcases ho : (m.getTile mv.from_idx).owner with _ | player
    · simp only [ho]
      refine ⟨trivial, ?_⟩
      have : ¬ ((none : Option PlayerId) = some mv.player) := by simp
      simp [this]
    · simp only [ho]
      by_cases hp : player = mv.player
      · subst hp
        have ha := attack_mountain_src (m.getTile mv.from_idx) (m.getTile dst_idx) hk
        simp only [ne_eq, not_true_eq_false, if_false, ite_false, ha, ite_not, ite_true]
        constructor
        · exact attack_write_of_error m _ _ _ (by rw [ha])
        · simp
      · simp only [ne_eq, hp, not_false_eq_true, if_true, ite_true]
        refine ⟨trivial, ?_⟩
        have : ¬ (some player = some mv.player) := by
          intro hc; exact hp (Option.some_injective _ hc)
        simp [this]

/-- C9 counterexample.  On `mountainMap` the move from the mountain at
index 0 is rejected with `SourceTileNotOwned`, not with the
`FromInvalidTile` the claim promises for a mountain source. -/
theorem mountain_source_rejected_counterexample :
    mountainMap.is_valid_index 0 = true ∧
    (mountainMap.getTile 0).kind = TileKind.Mountain ∧
    (mountainMap.perform_move
        { player := 0, from_idx := 0, direction := Direction.Right }).2
      = some InvalidMove.SourceTileNotOwned ∧
    (mountainMap.perform_move
        { player := 0, from_idx := 0, direction := Direction.Right }).2
      ≠ some InvalidMove.FromInvalidTile := by
  decide

/-- Witness for `mountain_source_rejected` on the concrete board. -/
theorem mountain_source_rejected_witness :
    (mountainMap.perform_move
        { player := 0, from_idx := 0, direction := Direction.Right }).1 = mountainMap :=
  (mountain_source_rejected mountainMap
    { player := 0, from_idx := 0, direction := Direction.Right }
    (by decide) (by decide)).1

lemma reinforce_general_step (u : Nat) :
    Map.reinforce (soloGeneral u) true = soloGeneral ((u + 1) % 65536) := by
  simp [soloGeneral, Map.reinforce, tileOf, Tile.incr_units, Tile.is_mountain,
    Tile.is_general, Tile.is_city, Tile.set_dirty]

lemma reinforce_iterate (k : Nat) :
    (fun m => Map.reinforce m true)^[k] generalBoard = soloGeneral ((1 + k) % 65536) := by
  induction k with
  | zero =>
    show generalBoard = _
    have h1 : (1 + 0) % 65536 = 1 := by decide
    rw [h1]
    rfl
  | succ n ih =>
    rw [Function.iterate_succ_apply', ih, reinforce_general_step]
    have h1 : ((1 + n) % 65536 + 1) % 65536 = (1 + (n + 1)) % 65536 := by omega
    rw [h1]

lemma reachable_reinforce_iterate (k : Nat) (m : Map) :
    MapReachable m ((fun m => Map.reinforce m true)^[k] m) := by
  induction k with
  | zero => exact Relation.ReflTransGen.refl
  | succ n ih =>
    rw [Function.iterate_succ_apply']
    exact ih.tail (Or.inr ⟨true, rfl⟩)

/-- C10.  Tile units are a `u16` with no cap enforced anywhere: from the
one-general starting board, 65534 public reinforcement sweeps are
reachable and leave the general at 65535 units, and one further sweep
wraps it to 0 (the unchecked `units += 1` of `Tile::incr_units` modulo
2^16); likewise the unchecked same-owner transfer of `Tile::attack`
wraps `65534 + 2` to 0. -/
theorem units_u16_overflow :
    MapReachable generalBoard maxedBoard ∧
    (maxedBoard.getTile 0).units = 65535 ∧
    ((maxedBoard.reinforce true).getTile 0).units = 0 ∧
    ((tileOf (some 0) 3 TileKind.Open [] []).attack
        (tileOf (some 0) 65534 TileKind.Open [] [])).2.2
      = Except.ok MoveOutcome.StatuQuo ∧
    ((tileOf (some 0) 3 TileKind.Open [] []).attack
        (tileOf (some 0) 65534 TileKind.Open [] [])).2.1.units = 0 := by
  have hm : maxedBoard = soloGeneral ((1 + 65534) % 65536) := reinforce_iterate 65534
  refine ⟨reachable_reinforce_iterate 65534 generalBoard, ?_, ?_, by decide, by decide⟩
  · rw [hm]; decide
  · rw [hm, reinforce_general_step]; decide


lemma list_getD_map {α β : Type} (f : α → β) (l : List α) (i : Nat) (d : β) (d1 : α)
    (h : i < l.length) : (l.map f).getD i d = f (l.getD i d1) := by
  rw [List.getD_eq_getElem _ _ (by simpa using h), List.getD_eq_getElem _ _ h,
    List.getElem_map]

lemma Map.getTile_reinforce (m : Map) (b : Bool) (i : Nat) (h : i < m.tiles.length) :
    (m.reinforce b).getTile i =
      (if (m.getTile i).is_mountain then m.getTile i
       else if ((m.getTile i).owner.isSome && b) || (m.getTile i).is_general
               || ((m.getTile i).is_city && (m.getTile i).owner.isSome)
         then (m.getTile i).incr_units 1 else m.getTile i) := by
  show (m.tiles.map _).getD i Tile.new = _
  rw [list_getD_map _ _ _ _ Tile.new h]
  rfl

lemma Tile.incr_units_units_of_not_mountain (t : Tile) (u : Nat)
    (h : t.is_mountain = false) : (t.incr_units u).units = (t.units + u) % 65536 := by
  unfold Tile.incr_units
  rw [h]
  rfl

lemma Map.reinforce_length (m : Map) (b : Bool) :
    (m.reinforce b).tiles.length = m.tiles.length := by
  show (m.tiles.map _).length = _
  rw [List.length_map]

lemma Game.incr_turn_turn (g : Game) : (g.incr_turn).turn = g.turn + 1 := by
  simp only [Game.incr_turn, Game.reinforce]
  split_ifs <;> rfl

lemma Game.incr_turn_map_full (g : Game) (h : (g.turn + 1) % 50 = 0) :
    (g.incr_turn).map = g.map.reinforce true := by
  simp only [Game.incr_turn, Game.reinforce, h, if_true, ite_true]

lemma Game.incr_turn_map_even (g : Game) (h50 : ¬ (g.turn + 1) % 50 = 0)
    (h2 : (g.turn + 1) % 2 = 0) : (g.incr_turn).map = g.map.reinforce false := by
  simp only [Game.incr_turn, Game.reinforce, h50, h2, if_true, ite_true, if_false, ite_false]

lemma Game.incr_turn_map_odd (g : Game) (h50 : ¬ (g.turn + 1) % 50 = 0)
    (h2 : ¬ (g.turn + 1) % 2 = 0) : (g.incr_turn).map = g.map := by
  simp only [Game.incr_turn, Game.reinforce, h50, h2, if_false, ite_false]

/-- C5 (amended).  One tick increments the turn by exactly one and then
reinforces: when the new turn is divisible by 50 exactly the
non-mountain tiles that are owned or are generals gain one unit; when
it is merely even exactly the generals and the occupied cities gain one
unit; on odd non-multiple turns nothing changes.  The gain is one unit
modulo 2^16 (`Tile::incr_units` is an unchecked `u16` addition). -/
theorem tick_reinforcement_cadence (g : Game) :
    (g.incr_turn).turn = g.turn + 1 ∧
    (g.incr_turn).map.tiles.length = g.map.tiles.length ∧
    ∀ i, i < g.map.tiles.length →
      (let t := g.map.getTile i
       let t1 := (g.incr_turn).map.getTile i
       ((g.turn + 1) % 50 = 0 →
          (t.is_mountain = false → (t.owner.isSome = true ∨ t.is_general = true) →
             t1.units = (t.units + 1) % 65536) ∧
          (t.is_mountain = true ∨ (t.owner.isSome = false ∧ t.is_general = false) →
             t1.units = t.units)) ∧
       ((g.turn + 1) % 50 ≠ 0 → (g.turn + 1) % 2 = 0 →
          (t.is_mountain = false →
             (t.is_general = true ∨ (t.is_city = true ∧ t.owner.isSome = true)) →
             t1.units = (t.units + 1) % 65536) ∧
          (t.is_mountain = true ∨
             (t.is_general = false ∧ (t.is_city = false ∨ t.owner.isSome = false)) →
             t1.units = t.units)) ∧
       ((g.turn + 1) % 50 ≠ 0 → (g.turn + 1) % 2 ≠ 0 → t1.units = t.units)) := by
  refine ⟨Game.incr_turn_turn g, ?_, ?_⟩
  · by_cases h50 : (g.turn + 1) % 50 = 0
    · rw [Game.incr_turn_map_full g h50, Map.reinforce_length]
    · by_cases h2 : (g.turn + 1) % 2 = 0
      · rw [Game.incr_turn_map_even g h50 h2, Map.reinforce_length]
      · rw [Game.incr_turn_map_odd g h50 h2]
  · intro i hi
    by_cases h50 : (g.turn + 1) % 50 = 0
    · refine ⟨?_, fun h => absurd h50 h, fun h => absurd h50 h⟩
      intro _
      rw [Game.incr_turn_map_full g h50, Map.getTile_reinforce _ _ _ hi]
      constructor
      · intro hm hcond
        rcases hcond with ho | hg
        · simp [hm, ho, Tile.incr_units_units_of_not_mountain _ _ hm]
        · simp [hm, hg, Tile.incr_units_units_of_not_mountain _ _ hm]
      · intro hcond
        rcases hcond with hm | ⟨ho, hg⟩
        · simp [hm]
        · by_cases hm : (g.map.getTile i).is_mountain
          · simp [hm]
          · simp only [Bool.not_eq_true] at hm
            simp [hm, ho, hg]
    · by_cases h2 : (g.turn + 1) % 2 = 0
      · refine ⟨fun h => absurd h h50, ?_, fun _ h => absurd h2 h⟩
        intro _ _
        rw [Game.incr_turn_map_even g h50 h2, Map.getTile_reinforce _ _ _ hi]
        constructor
        · intro hm hcond
          rcases hcond with hg | ⟨hc, ho⟩
          · simp [hm, hg, Tile.incr_units_units_of_not_mountain _ _ hm]
          · simp [hm, hc, ho, Tile.incr_units_units_of_not_mountain _ _ hm]
        · intro hcond
          rcases hcond with hm | ⟨hg, hrest⟩
          · simp [hm]
          · by_cases hm : (g.map.getTile i).is_mountain
            · simp [hm]
            · simp only [Bool.not_eq_true] at hm
              rcases hrest with hc | ho
              · simp [hm, hg, hc]
              · simp [hm, hg, ho]
      · refine ⟨fun h => absurd h h50, fun _ h => absurd h h2, ?_⟩
        intro _ _
        rw [Game.incr_turn_map_odd g h50 h2]



/-- C5 counterexample.  A game whose owned general sits at 65535 units:
on the next (even) tick the general's units wrap to 0, so it does not
gain exactly one unit. -/
theorem tick_gain_overflow_counterexample :
    wrapGame.turn + 1 = 2 ∧
    (wrapGame.map.getTile 0).kind = TileKind.General ∧
    (wrapGame.map.getTile 0).units = 65535 ∧
    ((wrapGame.incr_turn).map.getTile 0).units = 0 ∧
    ((wrapGame.incr_turn).map.getTile 0).units ≠ (wrapGame.map.getTile 0).units + 1 := by
  decide

/-- Witness for `tick_reinforcement_cadence`: a general at 10 units on
an even tick ends at 11. -/
theorem tick_reinforcement_cadence_witness :
    (tickGame.incr_turn).turn = tickGame.turn + 1 ∧
    ((tickGame.incr_turn).map.getTile 0).units
      = ((tickGame.map.getTile 0).units + 1) % 65536 := by
  obtain ⟨h1, h2, h3⟩ := tick_reinforcement_cadence tickGame
  exact ⟨h1, ((h3 0 (by decide)).2.1 (by decide) (by decide)).1 (by decide)
    (Or.inl (by decide))⟩




lemma tileOK_of_fields {t t1 : Tile} (ho : t1.owner = t.owner) (hk : t1.kind = t.kind)
    (h : TileOK t) : TileOK t1 := by
  intro h1
  rw [hk]
  exact h (ho ▸ h1)

lemma tileOK_new : TileOK Tile.new := by
  intro h
  exact absurd rfl h

lemma tileOK_set_dirty {t : Tile} (h : TileOK t) : TileOK t.set_dirty :=
  tileOK_of_fields rfl rfl h

lemma tileOK_reveal_to {t : Tile} (p : PlayerId) (h : TileOK t) : TileOK (t.reveal_to p) :=
  tileOK_of_fields rfl rfl h

lemma tileOK_hide_from {t : Tile} (p : PlayerId) (h : TileOK t) : TileOK (t.hide_from p) :=
  tileOK_of_fields (Tile.hide_from_owner t p) (Tile.hide_from_kind t p) h

lemma tileOK_incr_units {t : Tile} (u : Nat) (h : TileOK t) : TileOK (t.incr_units u) :=
  tileOK_of_fields (Tile.incr_units_owner t u) (Tile.incr_units_kind t u) h

lemma tileOK_set_owner {t : Tile} (p : Option PlayerId) (h : TileOK t) :
    TileOK (t.set_owner p) := by
  by_cases hm : t.is_mountain = true
  · unfold Tile.set_owner
    rw [hm]
    simpa using h
  · simp only [Bool.not_eq_true] at hm
    intro _
    rw [Tile.set_owner_kind]
    exact Tile.is_mountain_false.mp hm

lemma tileOK_cascade_visibility {t : Tile} (d a : PlayerId) (h : TileOK t) :
    TileOK (cascadeVisibility d a t) := by
  unfold cascadeVisibility
  split
  · exact tileOK_reveal_to _ (tileOK_hide_from _ h)
  · exact h

lemma tileOK_cascade {t : Tile} (d a : PlayerId) (h : TileOK t) :
    TileOK (cascadeTile d a t) := by
  unfold cascadeTile
  split
  · exact h
  · by_cases hoc : t.owner = some d
    all_goals simp only [hoc, if_true, if_false, ite_true, ite_false]
    · exact tileOK_cascade_visibility _ _ (tileOK_set_owner _ h)
    · exact tileOK_cascade_visibility _ _ h

lemma mapOK_getTile {m : Map} (h : m.OwnedNotMountain) (i : Nat) : TileOK (m.getTile i) := by
  unfold Map.getTile
  rcases Nat.lt_or_ge i m.tiles.length with hi | hi
  · rw [List.getD_eq_getElem _ _ hi]
    exact h _ (List.getElem_mem hi)
  · rw [List.getD_eq_default _ _ hi]
    exact tileOK_new

lemma mapOK_setTile {m : Map} (i : Nat) {t : Tile} (h : m.OwnedNotMountain)
    (ht : TileOK t) : (m.setTile i t).OwnedNotMountain := by
  intro t1 h1
  rcases List.mem_or_eq_of_mem_set h1 with h2 | h2
  · exact h t1 h2
  · rw [h2]
    exact ht

lemma attack_tiles_OK (src dst : Tile) (hs : TileOK src) (hd : TileOK dst) :
    TileOK (src.attack dst).1 ∧ TileOK (src.attack dst).2.1 := by
  by_cases h1 : src.is_mountain = true
  · simp only [Tile.attack, h1, if_true, ite_true]
    exact ⟨hs, hd⟩
  · simp only [Bool.not_eq_true] at h1
    by_cases h2 : dst.is_mountain = true
    · simp only [Tile.attack, h1, h2, Bool.false_eq_true, if_true, if_false, ite_true, ite_false]
      exact ⟨hs, hd⟩
    · simp only [Bool.not_eq_true] at h2
      have hsk : src.kind ≠ TileKind.Mountain := Tile.is_mountain_false.mp h1
      have hdk : dst.kind ≠ TileKind.Mountain := Tile.is_mountain_false.mp h2
      by_cases h3 : src.units < 2
      · simp only [Tile.attack, h1, h2, h3, Bool.false_eq_true, if_true, if_false, ite_true, ite_false]
        exact ⟨hs, hd⟩
      · rcases ho : src.owner with _ | attacker
        · simp only [Tile.attack, h1, h2, h3, ho, Bool.false_eq_true, if_true, if_false, ite_true, ite_false]
          exact ⟨hs, hd⟩
        · rcases hdo : dst.owner with _ | defender
          · by_cases hcmp : src.units - 1 ≤ dst.units
            all_goals simp only [Tile.attack, h1, h2, h3, ho, hdo, hcmp, Bool.false_eq_true,
              if_true, if_false, ite_true, ite_false]
            · exact ⟨fun _ => hsk, fun _ => hdk⟩
            · exact ⟨fun _ => hsk, fun _ => hdk⟩
          · by_cases hba : defender = attacker
            · simp only [Tile.attack, h1, h2, h3, ho, hdo, hba, ne_eq, not_true_eq_false,
                Bool.false_eq_true, if_true, if_false, ite_true, ite_false]
              exact ⟨fun _ => hsk, fun _ => hdk⟩
            · by_cases hcmp : src.units - 1 ≤ dst.units
              · simp only [Tile.attack, h1, h2, h3, ho, hdo, hba, hcmp, ne_eq,
                  not_false_eq_true, Bool.false_eq_true, if_true, if_false, ite_true, ite_false]
                exact ⟨fun _ => hsk, fun _ => hdk⟩
              · by_cases hknd : dst.kind = TileKind.General
                all_goals simp only [Tile.attack, h1, h2, h3, ho, hdo, hba, hcmp, hknd, ne_eq,
                  not_false_eq_true, Bool.false_eq_true, if_true, if_false, ite_true, ite_false]
                · exact ⟨fun _ => hsk, fun _ => (by intro hc; cases hc)⟩
                · exact ⟨fun _ => hsk, fun _ => hdk⟩



lemma mapOK_attack_write {m : Map} (i j : Nat) (h : m.OwnedNotMountain) :
    (m.attack_write i j).OwnedNotMountain := by
  obtain ⟨hs, hd⟩ := attack_tiles_OK (m.getTile i) (m.getTile j)
    (mapOK_getTile h i) (mapOK_getTile h j)
  exact mapOK_setTile _ (mapOK_setTile _ h hs) hd

lemma mapOK_foldl {step : Map → Nat → Map}
    (hstep : ∀ m i, Map.OwnedNotMountain m → Map.OwnedNotMountain (step m i)) :
    ∀ (l : List Nat) (m : Map), m.OwnedNotMountain → (l.foldl step m).OwnedNotMountain := by
  intro l
  induction l with
  | nil => exact fun m h => h
  | cons a t ih => exact fun m h => ih _ (hstep m a h)

lemma mapOK_enlarge {m : Map} (p : PlayerId) (idx : Nat) (h : m.OwnedNotMountain) :
    (m.enlarge_horizon p idx).OwnedNotMountain := by
  refine mapOK_foldl ?_ _ _ h
  intro m1 i h1
  split
  · exact h1
  · exact mapOK_setTile _ h1 (tileOK_reveal_to _ (mapOK_getTile h1 i))

lemma mapOK_shrink {m : Map} (p : PlayerId) (idx : Nat) (h : m.OwnedNotMountain) :
    (m.shrink_horizon p idx).OwnedNotMountain := by
  refine mapOK_foldl ?_ _ _ h
  intro m1 i h1
  split
  · split
    · exact mapOK_setTile _ h1 (tileOK_hide_from _ (mapOK_getTile h1 i))
    · exact h1
  · exact h1

lemma mapOK_cascade {m : Map} (d a : PlayerId) (h : m.OwnedNotMountain) :
    (m.general_captured_cascade d a).OwnedNotMountain := by
  intro t1 h1
  obtain ⟨t, ht, rfl⟩ := List.mem_map.mp h1
  exact tileOK_cascade d a (h t ht)

lemma mapOK_reinforce {m : Map} (b : Bool) (h : m.OwnedNotMountain) :
    (m.reinforce b).OwnedNotMountain := by
  intro t1 h1
  obtain ⟨t, ht, rfl⟩ := List.mem_map.mp h1
  split
  · exact h t ht
  · split
    · exact tileOK_incr_units _ (h t ht)
    · exact h t ht

lemma mapOK_perform_move {m : Map} (mv : Move) (h : m.OwnedNotMountain) :
    ((m.perform_move mv).1).OwnedNotMountain := by
  unfold Map.perform_move
  by_cases hv : m.is_valid_index mv.from_idx = true
  all_goals simp only [hv, Bool.not_eq_true, not_true_eq_false, not_false_eq_true,
    if_true, if_false, ite_true, ite_false, Bool.false_eq_true]
  · rcases hn : m.neighbor mv.from_idx mv.direction with _ | dst_idx
    all_goals simp only [hn]
    · exact h
    · rcases ho : (m.getTile mv.from_idx).owner with _ | player
      all_goals simp only [ho]
      · exact h
      · by_cases hp : player = mv.player
        all_goals simp only [hp, ne_eq, not_true_eq_false, not_false_eq_true,
          if_true, if_false, ite_true, ite_false, ite_not]
        · rcases hr : ((m.getTile mv.from_idx).attack (m.getTile dst_idx)).2.2 with e1 | outcome
          all_goals simp only [hr]
          · exact mapOK_attack_write _ _ h
          · rcases outcome with d | c | _
            · exact mapOK_cascade _ _ (mapOK_attack_write _ _ h)
            · rcases c with _ | defeated
              · exact mapOK_enlarge _ _ (mapOK_attack_write _ _ h)
              · exact mapOK_enlarge _ _ (mapOK_shrink _ _ (mapOK_attack_write _ _ h))
            · exact mapOK_attack_write _ _ h
        · exact h
  · exact h

/-- C2 (amended).  The part of invariant I1 that the code preserves:
from any board whose owned tiles are non-mountains, every board
reachable by public map operations again has no owned mountain.  The
`units >= 1` half of I1 is not preserved (see the counterexample). -/
theorem i1_owner_not_mountain_preserved (m0 m : Map) (h0 : m0.OwnedNotMountain)
    (hr : MapReachable m0 m) : m.OwnedNotMountain := by
  induction hr with
  | refl => exact h0
  | tail _ hbc ih =>
    rcases hbc with ⟨mv, rfl⟩ | ⟨bb, rfl⟩
    · exact mapOK_perform_move mv ih
    · exact mapOK_reinforce bb ih



/-- C2 counterexample.  `tieMap` satisfies the full invariant I1, yet a
single public `perform_move` (a defense where the defender's units
exactly equal the attacking force) leaves tile 1 owned by player 2 with
0 units, violating I1. -/
theorem i1_units_counterexample :
    tieMap.I1 ∧
    MapStep tieMap (tieMap.perform_move tieMove).1 ∧
    ¬ ((tieMap.perform_move tieMove).1.I1) ∧
    ((tieMap.perform_move tieMove).1.getTile 1).owner = some 2 ∧
    ((tieMap.perform_move tieMove).1.getTile 1).units = 0 :=
  ⟨by decide, Or.inl ⟨tieMove, rfl⟩, by decide, by decide, by decide⟩

/-- Witness for `i1_owner_not_mountain_preserved` after one concrete
move. -/
theorem i1_owner_not_mountain_preserved_witness :
    tieMap.OwnedNotMountain ∧ ((tieMap.perform_move tieMove).1).OwnedNotMountain :=
  ⟨by decide,
   i1_owner_not_mountain_preserved tieMap _ (by decide)
     (Relation.ReflTransGen.single (Or.inl ⟨tieMove, rfl⟩))⟩

/-- C3 (code bug, evaluated at the failing input).  `isoMap` satisfies
I1 and I2; the successful capture of tile 1 by player 1 triggers
`shrink_horizon(2, 1)`, which hides tile 2 from player 2 even though
player 2 still owns tile 2 (`owns_extended_neighbor` inspects only the
neighbors of tile 2, never tile 2 itself), leaving an owned tile
invisible to its owner and violating I2. -/
theorem shrink_horizon_hides_owned_tile :
    isoMap.I1 ∧ isoMap.I2 ∧
    (isoMap.perform_move isoMove).2 = none ∧
    ((isoMap.perform_move isoMove).1.getTile 2).owner = some 2 ∧
    ((isoMap.perform_move isoMove).1.getTile 2).is_visible_by 2 = false := by
  decide



lemma Tile.set_owner_visible_some (t : Tile) (o : PlayerId) (hm : t.is_mountain = false) :
    (t.set_owner (some o)).visible_by = insert o t.visible_by := by
  unfold Tile.set_owner
  rw [hm]
  cases t.owner <;> rfl

lemma Tile.hide_from_visible_mem (t : Tile) (p : PlayerId) (h : p ∈ t.visible_by) :
    (t.hide_from p).visible_by = t.visible_by.erase p := by
  unfold Tile.hide_from
  rw [if_pos h]

lemma cascadeVisibility_kind (d a : PlayerId) (t : Tile) :
    (cascadeVisibility d a t).kind = t.kind := by
  unfold cascadeVisibility
  split
  · rw [Tile.reveal_to_kind, Tile.hide_from_kind]
  · rfl

lemma cascadeVisibility_owner (d a : PlayerId) (t : Tile) :
    (cascadeVisibility d a t).owner = t.owner := by
  unfold cascadeVisibility
  split
  · rw [Tile.reveal_to_owner, Tile.hide_from_owner]
  · rfl

lemma cascadeVisibility_no_defeated (d a : PlayerId) (t : Tile) (hda : d ≠ a) :
    d ∉ (cascadeVisibility d a t).visible_by := by
  unfold cascadeVisibility
  by_cases hv : t.is_visible_by d = true
  · rw [if_pos hv, Tile.reveal_to_visible,
      Tile.hide_from_visible_mem _ _ (of_decide_eq_true hv)]
    intro hc
    rcases Finset.mem_insert.mp hc with h1 | h1
    · exact hda h1
    · exact absurd h1 (Finset.not_mem_erase d _)
  · rw [if_neg hv]
    intro hc
    exact hv (decide_eq_true hc)

lemma cascadeTile_kind (d a : PlayerId) (t : Tile) : (cascadeTile d a t).kind = t.kind := by
  unfold cascadeTile
  split
  · rfl
  · rw [cascadeVisibility_kind]
    split
    · rw [Tile.set_owner_kind]
    · rfl

lemma cascadeTile_owner_defeated (d a : PlayerId) (t : Tile)
    (hm : t.is_mountain = false) (ho : t.owner = some d) :
    (cascadeTile d a t).owner = some a := by
  unfold cascadeTile
  simp only [hm, Bool.false_eq_true, if_false, ite_false, ho, if_true, ite_true]
  rw [cascadeVisibility_owner, Tile.set_owner_owner_of_not_mountain t _ hm]

lemma cascadeTile_no_defeated_visible (d a : PlayerId) (t : Tile)
    (hda : d ≠ a) (hm : t.is_mountain = false) :
    d ∉ (cascadeTile d a t).visible_by := by
  unfold cascadeTile
  simp only [hm, Bool.false_eq_true, if_false, ite_false]
  exact cascadeVisibility_no_defeated d a _ hda

lemma cascadeTile_attacker_visible (d a : PlayerId) (t : Tile)
    (hm : t.is_mountain = false) (hd : d ∈ t.visible_by) :
    a ∈ (cascadeTile d a t).visible_by := by
  unfold cascadeTile
  simp only [hm, Bool.false_eq_true, if_false, ite_false]
  have hd1 : d ∈ (if t.owner = some d then t.set_owner (some a) else t).visible_by := by
    split
    · rw [Tile.set_owner_visible_some _ _ hm]
      exact Finset.mem_insert_of_mem hd
    · exact hd
  have hv : (if t.owner = some d then t.set_owner (some a) else t).is_visible_by d = true :=
    decide_eq_true hd1
  unfold cascadeVisibility
  rw [if_pos hv, Tile.reveal_to_visible]
  exact Finset.mem_insert_self a _



lemma Map.setTile_length (m : Map) (i : Nat) (t : Tile) :
    (m.setTile i t).tiles.length = m.tiles.length := by
  show (m.tiles.set i t).length = _
  rw [List.length_set]

lemma Map.setTile_width (m : Map) (i : Nat) (t : Tile) : (m.setTile i t).width = m.width := rfl

lemma Map.setTile_height (m : Map) (i : Nat) (t : Tile) : (m.setTile i t).height = m.height := rfl

lemma Map.getTile_setTile_self (m : Map) (i : Nat) (t : Tile) (h : i < m.tiles.length) :
    (m.setTile i t).getTile i = t := by
  show (m.tiles.set i t).getD i Tile.new = t
  rw [List.getD_eq_getElem _ _ (by rw [List.length_set]; exact h), List.getElem_set_self]

lemma Map.getTile_setTile_ne (m : Map) (i j : Nat) (t : Tile) (h : i ≠ j) :
    (m.setTile i t).getTile j = m.getTile j := by
  show (m.tiles.set i t).getD j Tile.new = m.tiles.getD j Tile.new
  rw [List.getD_eq_getElem?_getD, List.getD_eq_getElem?_getD, List.getElem?_set_ne h]

lemma Map.setTile_of_le (m : Map) (i : Nat) (t : Tile) (h : m.tiles.length ≤ i) :
    m.setTile i t = m := by
  show { m with tiles := m.tiles.set i t } = m
  rw [List.set_eq_of_length_le h]

lemma cascade_fold_length (d a : PlayerId) :
    ∀ (l : List Nat) (m : Map), (m.cascade_fold d a l).tiles.length = m.tiles.length := by
  intro l
  induction l with
  | nil => intro m; rfl
  | cons i t ih =>
    intro m
    show ((m.setTile i _).cascade_fold d a t).tiles.length = _
    rw [ih, Map.setTile_length]

lemma cascade_fold_width (d a : PlayerId) :
    ∀ (l : List Nat) (m : Map), (m.cascade_fold d a l).width = m.width := by
  intro l
  induction l with
  | nil => intro m; rfl
  | cons i t ih =>
    intro m
    show ((m.setTile i _).cascade_fold d a t).width = _
    rw [ih, Map.setTile_width]

lemma cascade_fold_height (d a : PlayerId) :
    ∀ (l : List Nat) (m : Map), (m.cascade_fold d a l).height = m.height := by
  intro l
  induction l with
  | nil => intro m; rfl
  | cons i t ih =>
    intro m
    show ((m.setTile i _).cascade_fold d a t).height = _
    rw [ih, Map.setTile_height]

lemma cascade_fold_getTile (d a : PlayerId) :
    ∀ (l : List Nat) (m : Map), l.Nodup → ∀ j,
      (m.cascade_fold d a l).getTile j =
        if j ∈ l ∧ j < m.tiles.length then cascadeTile d a (m.getTile j)
        else m.getTile j := by
  intro l
  induction l with
  | nil =>
    intro m _ j
    rw [if_neg]
    · rfl
    · rintro ⟨h1, _⟩
      exact absurd h1 (List.not_mem_nil j)
  | cons i rest ih =>
    intro m hnd j
    obtain ⟨hni, hnd2⟩ := List.nodup_cons.mp hnd
    have step : (m.cascade_fold d a (i :: rest))
        = ((m.setTile i (cascadeTile d a (m.getTile i))).cascade_fold d a rest) := rfl
    rw [step, ih _ hnd2 j]
    rcases Nat.lt_or_ge i m.tiles.length with hilt | hge
    · by_cases hji : j = i
      · subst hji
        rw [if_neg (fun hc => hni hc.1), Map.getTile_setTile_self _ _ _ hilt,
          if_pos ⟨List.mem_cons_self j rest, hilt⟩]
      · rw [Map.getTile_setTile_ne _ _ _ _ (fun hc => hji hc.symm), Map.setTile_length]
        by_cases hjl : j ∈ rest ∧ j < m.tiles.length
        · rw [if_pos hjl, if_pos ⟨List.mem_cons_of_mem i hjl.1, hjl.2⟩]
        · rw [if_neg hjl, if_neg]
          rintro ⟨hc1, hc2⟩
          rcases List.mem_cons.mp hc1 with hc3 | hc3
          · exact hji hc3
          · exact hjl ⟨hc3, hc2⟩
    · rw [Map.setTile_of_le _ _ _ hge]
      by_cases hjl : j ∈ rest ∧ j < m.tiles.length
      · rw [if_pos hjl, if_pos ⟨List.mem_cons_of_mem i hjl.1, hjl.2⟩]
      · rw [if_neg hjl, if_neg]
        rintro ⟨hc1, hc2⟩
        rcases List.mem_cons.mp hc1 with hc3 | hc3
        · subst hc3
          exact absurd hc2 (by omega)
        · exact hjl ⟨hc3, hc2⟩

lemma Map.getTile_eq_getElem (m : Map) (j : Nat) (h : j < m.tiles.length) :
    m.getTile j = m.tiles[j] :=
  List.getD_eq_getElem _ _ h

lemma Map.cascade_length (m : Map) (d a : PlayerId) :
    (m.general_captured_cascade d a).tiles.length = m.tiles.length := by
  show (m.tiles.map _).length = _
  rw [List.length_map]

lemma Map.getTile_cascade (m : Map) (d a : PlayerId) (j : Nat) (h : j < m.tiles.length) :
    (m.general_captured_cascade d a).getTile j = cascadeTile d a (m.getTile j) := by
  show (m.tiles.map _).getD j Tile.new = _
  rw [list_getD_map _ _ _ _ Tile.new h]
  rfl

lemma cascade_fold_eq_cascade (m : Map) (d a : PlayerId) (l : List Nat)
    (hnd : l.Nodup) (hc : ∀ j, j ∈ l ↔ j < m.tiles.length) :
    m.cascade_fold d a l = m.general_captured_cascade d a := by
  have e1 : (m.cascade_fold d a l).tiles = (m.general_captured_cascade d a).tiles := by
    apply List.ext_getElem
    · rw [cascade_fold_length, Map.cascade_length]
    · intro j hj1 hj2
      have hjm : j < m.tiles.length := by
        rw [cascade_fold_length] at hj1
        exact hj1
      have g1 : (m.cascade_fold d a l).getTile j = (m.cascade_fold d a l).tiles[j] :=
        Map.getTile_eq_getElem _ _ hj1
      have g2 : (m.general_captured_cascade d a).getTile j
          = (m.general_captured_cascade d a).tiles[j] :=
        Map.getTile_eq_getElem _ _ hj2
      rw [← g1, ← g2, cascade_fold_getTile d a l m hnd j,
        if_pos ⟨(hc j).mpr hjm, hjm⟩, Map.getTile_cascade _ _ _ _ hjm]
  calc m.cascade_fold d a l
      = { tiles := (m.cascade_fold d a l).tiles, width := (m.cascade_fold d a l).width,
          height := (m.cascade_fold d a l).height } := rfl
    _ = { tiles := (m.general_captured_cascade d a).tiles,
          width := (m.general_captured_cascade d a).width,
          height := (m.general_captured_cascade d a).height } := by
        rw [e1, cascade_fold_width, cascade_fold_height]
        rfl
    _ = m.general_captured_cascade d a := rfl



lemma attack_general_captured_ne (src dst : Tile) (a d : PlayerId)
    (ho : src.owner = some a)
    (h : (src.attack dst).2.2 = Except.ok (MoveOutcome.GeneralCaptured d)) : d ≠ a := by
  by_cases h1 : src.is_mountain = true
  · simp [Tile.attack, h1] at h
  · simp only [Bool.not_eq_true] at h1
    by_cases h2 : dst.is_mountain = true
    · simp [Tile.attack, h1, h2] at h
    · simp only [Bool.not_eq_true] at h2
      by_cases h3 : src.units < 2
      · simp [Tile.attack, h1, h2, h3] at h
      · rcases hdo : dst.owner with _ | defender
        · by_cases hcmp : src.units - 1 ≤ dst.units
          all_goals simp [Tile.attack, h1, h2, h3, ho, hdo, hcmp] at h
        · by_cases hba : defender = a
          · simp [Tile.attack, h1, h2, h3, ho, hdo, hba] at h
          · by_cases hcmp : src.units - 1 ≤ dst.units
            · simp [Tile.attack, h1, h2, h3, ho, hdo, hba, hcmp] at h
            · by_cases hknd : dst.kind = TileKind.General
              · simp only [Tile.attack, h1, h2, h3, ho, hdo, hba, hcmp, hknd, ne_eq,
                  not_false_eq_true, Bool.false_eq_true, if_true, if_false,
                  ite_true, ite_false] at h
                obtain rfl : defender = d := by
                  injection h with h4
                  injection h4
                exact hba
              · simp [Tile.attack, h1, h2, h3, ho, hdo, hba, hcmp, hknd] at h

lemma perform_move_general_captured (m : Map) (mv : Move) (dIdx : Nat) (d : PlayerId)
    (hv : m.is_valid_index mv.from_idx = true)
    (hn : m.neighbor mv.from_idx mv.direction = some dIdx)
    (ho : (m.getTile mv.from_idx).owner = some mv.player)
    (hr : ((m.getTile mv.from_idx).attack (m.getTile dIdx)).2.2
            = Except.ok (MoveOutcome.GeneralCaptured d)) :
    m.perform_move mv
      = ((m.attack_write mv.from_idx dIdx).general_captured_cascade d mv.player, none) := by
  unfold Map.perform_move
  simp only [hv, not_true_eq_false, if_false, ite_false, Bool.false_eq_true, hn, ho,
    ne_eq, not_true_eq_false, not_false_eq_true, if_true, ite_true, hr, ite_not]



/-- C4 (amended).  When a move captures a general, the whole map is
rewritten by the cascade: the defeated player is distinct from the
mover; every non-mountain tile owned by the defeated player (after the
attack wrote the two battle tiles) now belongs to the mover; no
non-mountain tile keeps the defeated player in `visible_by`; every
non-mountain tile the defeated player saw is now seen by the mover; and
folding the per-tile cascade over the indices in any duplicate-free
covering order yields the same final map (order independence).  Mountain
tiles are skipped by the cascade, so a mountain abnormally carrying the
defeated player in `visible_by` would keep it - hence "non-mountain"
(see the counterexample). -/
theorem general_capture_cascade_spec (m : Map) (mv : Move) (dIdx : Nat) (d : PlayerId)
    (hv : m.is_valid_index mv.from_idx = true)
    (hn : m.neighbor mv.from_idx mv.direction = some dIdx)
    (ho : (m.getTile mv.from_idx).owner = some mv.player)
    (hr : ((m.getTile mv.from_idx).attack (m.getTile dIdx)).2.2
            = Except.ok (MoveOutcome.GeneralCaptured d)) :
    d ≠ mv.player ∧
    m.perform_move mv
      = ((m.attack_write mv.from_idx dIdx).general_captured_cascade d mv.player, none) ∧
    (∀ i, i < (m.attack_write mv.from_idx dIdx).tiles.length →
      ((m.attack_write mv.from_idx dIdx).getTile i).is_mountain = false →
      ((((m.attack_write mv.from_idx dIdx).getTile i).owner = some d →
         (((m.attack_write mv.from_idx dIdx).general_captured_cascade d mv.player).getTile i).owner
           = some mv.player) ∧
       d ∉ (((m.attack_write mv.from_idx dIdx).general_captured_cascade d mv.player).getTile i).visible_by ∧
       (d ∈ ((m.attack_write mv.from_idx dIdx).getTile i).visible_by →
         mv.player ∈ (((m.attack_write mv.from_idx dIdx).general_captured_cascade d mv.player).getTile i).visible_by))) ∧
    (∀ l : List Nat, l.Nodup →
      (∀ j, j ∈ l ↔ j < (m.attack_write mv.from_idx dIdx).tiles.length) →
      (m.attack_write mv.from_idx dIdx).cascade_fold d mv.player l
        = (m.attack_write mv.from_idx dIdx).general_captured_cascade d mv.player) := by
  have hda : d ≠ mv.player := attack_general_captured_ne _ _ _ _ ho hr
  refine ⟨hda, perform_move_general_captured m mv dIdx d hv hn ho hr, ?_, ?_⟩
  · intro i hi hm
    rw [Map.getTile_cascade _ _ _ _ hi]
    exact ⟨cascadeTile_owner_defeated _ _ _ hm,
           cascadeTile_no_defeated_visible _ _ _ hda hm,
           cascadeTile_attacker_visible _ _ _ hm⟩
  · intro l hnd hc
    exact cascade_fold_eq_cascade _ _ _ l hnd hc

/-- C4 counterexample.  On `capMap` the general capture succeeds, but
the mountain at index 2 carries player 2 in `visible_by` and the
cascade skips mountains, so after `perform_move` some tile still has
the defeated player 2 in its `visible_by`, contradicting the claim's
unqualified "no tile". -/
theorem general_capture_mountain_visibility_counterexample :
    ((capMap.getTile 0).attack (capMap.getTile 1)).2.2
      = Except.ok (MoveOutcome.GeneralCaptured 2) ∧
    (capMap.perform_move capMove).2 = none ∧
    (capMap.getTile 2).kind = TileKind.Mountain ∧
    2 ∈ ((capMap.perform_move capMove).1.getTile 2).visible_by := by
  decide

/-- Witness for `general_capture_cascade_spec` on `capMap`. -/
theorem general_capture_cascade_spec_witness :
    capMap.perform_move capMove
      = ((capMap.attack_write 0 1).general_captured_cascade 2 1, none) :=
  (general_capture_cascade_spec capMap capMove 1 2
    (by decide) (by decide) (by decide) (by decide)).2.1



lemma renderStep_none_owner (first : Bool) (ps : PlayerId → Option Player)
    (upd : List (Nat × Tile)) (ts : List Tile) (i : Nat) (t : Tile)
    (howner : t.owner = none) :
    renderStep first (some (ps, upd, ts)) (i, t)
      = (if first || t.is_dirty then some (ps, upd ++ [(i, t)], ts ++ [t.set_clean])
         else some (ps, upd, ts ++ [t])) := by
  simp only [renderStep, howner]

lemma renderStep_some_owner (first : Bool) (ps : PlayerId → Option Player)
    (upd : List (Nat × Tile)) (ts : List Tile) (i : Nat) (t : Tile)
    (o : PlayerId) (pl : Player) (howner : t.owner = some o) (hpl : ps o = some pl) :
    renderStep first (some (ps, upd, ts)) (i, t)
      = (if first || t.is_dirty then
          some (Function.update ps o (some { pl with owned_tiles := pl.owned_tiles + 1 }),
            upd ++ [(i, t)], ts ++ [t.set_clean])
         else
          some (Function.update ps o (some { pl with owned_tiles := pl.owned_tiles + 1 }),
            upd, ts ++ [t])) := by
  simp only [renderStep, howner, hpl]




lemma pairOwnedCount_cons_none (i : Nat) (t : Tile) (l : List (Nat × Tile))
    (howner : t.owner = none) :
    pairOwnedCount ((i, t) :: l) = pairOwnedCount l := by
  funext p
  unfold pairOwnedCount
  rw [List.filter_cons_of_neg (by simp [howner])]

lemma renderFold_some (first : Bool) :
    ∀ (l : List (Nat × Tile)) (ps : PlayerId → Option Player)
      (upd : List (Nat × Tile)) (ts : List Tile),
      (∀ it ∈ l, ∀ o, it.2.owner = some o → (ps o).isSome = true) →
      l.foldl (renderStep first) (some (ps, upd, ts)) =
        some (fun p => match ps p with
               | none => none
               | some pl => some { pl with owned_tiles := pl.owned_tiles + pairOwnedCount l p },
              upd ++ l.filter (fun it => first || it.2.is_dirty),
              ts ++ l.map (fun it => if first || it.2.is_dirty then it.2.set_clean else it.2)) := by
  intro l
  induction l with
  | nil =>
    intro ps upd ts _
    simp only [List.foldl_nil, List.filter_nil, List.map_nil, List.append_nil,
      pairOwnedCount, List.length_nil, Nat.add_zero]
    have hf : (fun p => match ps p with
        | none => none
        | some pl => some { pl with owned_tiles := pl.owned_tiles }) = ps := by
      funext p
      cases ps p <;> rfl
    rw [hf]
  | cons hd tl ih =>
    intro ps upd ts H
    obtain ⟨i, t⟩ := hd
    have Htl : ∀ it ∈ tl, ∀ o, it.2.owner = some o → (ps o).isSome = true :=
      fun it hit o2 ho2 => H it (List.mem_cons_of_mem _ hit) o2 ho2
    rcases howner : t.owner with _ | o
    · rw [List.foldl_cons, renderStep_none_owner first ps upd ts i t howner]
      by_cases hc : (first || t.is_dirty) = true
      · rw [if_pos hc, ih ps (upd ++ [(i, t)]) (ts ++ [t.set_clean]) Htl,
          pairOwnedCount_cons_none _ _ _ howner]
        rcases Bool.or_eq_true_iff.mp hc with h | h <;>
          simp [List.filter_cons, List.map_cons, hc, h, List.append_assoc]
      · rw [Bool.not_eq_true] at hc
        obtain ⟨h1, h2⟩ := Bool.or_eq_false_iff.mp hc
        rw [if_neg (by rw [hc]; exact Bool.false_ne_true), ih ps upd (ts ++ [t]) Htl,
          pairOwnedCount_cons_none _ _ _ howner]
        simp [List.filter_cons, List.map_cons, h1, h2, List.append_assoc]
    · have hps : (ps o).isSome = true :=
        H (i, t) (List.mem_cons_self _ _) o howner
      obtain ⟨pl, hpl⟩ := Option.isSome_iff_exists.mp hps
      set ps1 := Function.update ps o (some { pl with owned_tiles := pl.owned_tiles + 1 })
        with hps1
      have Htl1 : ∀ it ∈ tl, ∀ o2, it.2.owner = some o2 → (ps1 o2).isSome = true := by
        intro it hit o2 ho2
        by_cases ho2o : o2 = o
        · subst ho2o
          rw [hps1, Function.update_same]
          rfl
        · rw [hps1, Function.update_noteq ho2o]
          exact Htl it hit o2 ho2
      have hcnt : ∀ p, pairOwnedCount ((i, t) :: tl) p
          = (if o = p then 1 else 0) + pairOwnedCount tl p := by
        intro p
        unfold pairOwnedCount
        by_cases hop : o = p
        · subst hop
          rw [List.filter_cons_of_pos (by simp [howner]), if_pos rfl]
          simp [Nat.add_comm]
        · rw [List.filter_cons_of_neg (by simp [howner, hop]), if_neg hop]
          simp
      have hfun : (fun p => match ps1 p with
            | none => none
            | some pl2 => some { pl2 with owned_tiles := pl2.owned_tiles + pairOwnedCount tl p })
          = (fun p => match ps p with
            | none => none
            | some pl2 => some { pl2 with owned_tiles := pl2.owned_tiles + pairOwnedCount ((i, t) :: tl) p }) := by
        funext p
        by_cases hop : o = p
        · subst hop
          rw [hps1, Function.update_same, hpl, hcnt o, if_pos rfl]
          have h3 : pl.owned_tiles + 1 + pairOwnedCount tl o
              = pl.owned_tiles + (1 + pairOwnedCount tl o) := by omega
          simp [h3]
        · rw [hps1, Function.update_noteq (fun hc => hop hc.symm)]
          cases hpp : ps p <;> simp [hcnt p, hop]
      rw [List.foldl_cons, renderStep_some_owner first ps upd ts i t o pl howner hpl]
      by_cases hc : (first || t.is_dirty) = true
      · rw [if_pos hc, ih ps1 (upd ++ [(i, t)]) (ts ++ [t.set_clean]) Htl1, hfun]
        rcases Bool.or_eq_true_iff.mp hc with h | h <;>
          simp [List.filter_cons, List.map_cons, hc, h, List.append_assoc]
      · rw [Bool.not_eq_true] at hc
        obtain ⟨h1, h2⟩ := Bool.or_eq_false_iff.mp hc
        rw [if_neg (by rw [hc]; exact Bool.false_ne_true), ih ps1 upd (ts ++ [t]) Htl1, hfun]
        simp [List.filter_cons, List.map_cons, h1, h2, List.append_assoc]



lemma enumFrom_snd_mem {α : Type} :
    ∀ (l : List α) (k : Nat) (it : Nat × α), it ∈ List.enumFrom k l → it.2 ∈ l := by
  intro l
  induction l with
  | nil => intro k it h; cases h
  | cons a tl ih =>
    intro k it h
    rw [List.enumFrom_cons] at h
    rcases List.mem_cons.mp h with h2 | h2
    · rw [h2]
      exact List.mem_cons_self _ _
    · exact List.mem_cons_of_mem _ (ih (k + 1) it h2)

lemma pairOwnedCount_enumFrom (p : PlayerId) :
    ∀ (l : List Tile) (k : Nat),
      pairOwnedCount (List.enumFrom k l) p
        = (l.filter (fun t => decide (t.owner = some p))).length := by
  intro l
  induction l with
  | nil => intro k; rfl
  | cons a tl ih =>
    intro k
    unfold pairOwnedCount
    rw [List.enumFrom_cons, List.filter_cons, List.filter_cons]
    have htl := ih (k + 1)
    unfold pairOwnedCount at htl
    by_cases h : (a.owner = some p)
    · simp [h, htl]
    · simp [h, htl]

/-- C6.  When every owned tile's owner is a known player,
`Game::get_update` succeeds, and in the produced update every player's
`owned_tiles` equals the number of tiles they own, a player is newly
marked defeated (at the current turn) exactly when they were undefeated
before the call and own zero tiles after the recount, and an already
defeated player keeps their `defeated_at`. -/
theorem render_update_recount (g : Game)
    (H : ∀ t ∈ g.map.tiles, (t.owner.all fun o => (g.players o).isSome) = true) :
    ∃ g2 u, g.get_update = some (g2, u) ∧
      ∀ p pl0, g.players p = some pl0 →
        ∃ pl, u.players p = some pl ∧
          pl.owned_tiles = g.map.owned_count p ∧
          ((pl0.defeated_at = none ∧ pl.defeated_at = some g.turn) ↔
           (pl0.defeated_at = none ∧ g.map.owned_count p = 0)) ∧
          (pl0.defeated_at ≠ none → pl.defeated_at = pl0.defeated_at) := by
  have H2 : ∀ it ∈ g.map.tiles.enum, ∀ o, it.2.owner = some o →
      (((fun p => (g.players p).map (fun pl => { pl with owned_tiles := 0 })) : PlayerId → Option Player) o).isSome = true := by
    intro it hit o ho
    have hmem : it.2 ∈ g.map.tiles := enumFrom_snd_mem _ _ _ hit
    have h3 := H it.2 hmem
    rw [ho] at h3
    simp only [Option.all_some] at h3
    show (Option.map _ (g.players o)).isSome = true
    cases hgo : g.players o
    · rw [hgo] at h3
      exact absurd h3 (by simp)
    · rfl
  unfold Game.get_update
  simp only []
  rw [renderFold_some (decide (g.turn = 0)) (g.map.tiles.enum) _ [] [] H2]
  refine ⟨_, _, rfl, ?_⟩
  intro p pl0 hpl0
  have hcnt : pairOwnedCount g.map.tiles.enum p = g.map.owned_count p :=
    pairOwnedCount_enumFrom p g.map.tiles 0
  simp only [hpl0, Option.map_some', hcnt, Nat.zero_add]
  refine ⟨_, rfl, ?_, ?_, ?_⟩
  · split
    · rfl
    · rfl
  · by_cases hdef : pl0.defeated_at = none
    · by_cases hc0 : g.map.owned_count p = 0
      · rw [if_pos ⟨hc0, hdef⟩]
        simp [hdef, hc0]
      · rw [if_neg (fun hcc => hc0 hcc.1)]
        simp [hdef, hc0]
    · rw [if_neg (fun hcc => hdef hcc.2)]
      simp [hdef]
  · intro hdef
    rw [if_neg (fun hcc => hdef hcc.2)]



/-- Witness for `render_update_recount` on `recountGame` (player 1 owns
one tile, player 2 none and gets marked defeated). -/
theorem render_update_recount_witness :
    (∀ t ∈ recountGame.map.tiles,
        (t.owner.all fun o => (recountGame.players o).isSome) = true) ∧
    ∃ g2 u, recountGame.get_update = some (g2, u) ∧
      ∀ p pl0, recountGame.players p = some pl0 →
        ∃ pl, u.players p = some pl ∧
          pl.owned_tiles = recountGame.map.owned_count p ∧
          ((pl0.defeated_at = none ∧ pl.defeated_at = some recountGame.turn) ↔
           (pl0.defeated_at = none ∧ recountGame.map.owned_count p = 0)) ∧
          (pl0.defeated_at ≠ none → pl.defeated_at = pl0.defeated_at) :=
  ⟨by decide, render_update_recount recountGame (by decide)⟩



lemma Tile.set_units_kind (t : Tile) (u : Nat) : (t.set_units u).kind = t.kind := by
  unfold Tile.set_units
  split <;> rfl

lemma Tile.set_units_owner (t : Tile) (u : Nat) : (t.set_units u).owner = t.owner := by
  unfold Tile.set_units
  split <;> rfl

lemma Tile.set_units_units_not_mountain (t : Tile) (u : Nat) (h : t.is_mountain = false) :
    (t.set_units u).units = u := by
  unfold Tile.set_units
  rw [h]
  rfl

lemma Tile.set_units_mountain (t : Tile) (u : Nat) (h : t.is_mountain = true) :
    t.set_units u = t := by
  unfold Tile.set_units
  rw [h]
  rfl

lemma Tile.make_open_kind (t : Tile) : t.make_open.kind = TileKind.Open := rfl

lemma Tile.make_open_owner (t : Tile) : t.make_open.owner = t.owner := rfl

lemma Tile.make_open_units (t : Tile) : t.make_open.units = t.units := rfl

lemma Tile.make_mountain_kind (t : Tile) : t.make_mountain.kind = TileKind.Mountain := rfl

lemma Tile.make_mountain_owner (t : Tile) : t.make_mountain.owner = t.owner := rfl

lemma Tile.make_mountain_units (t : Tile) : t.make_mountain.units = t.units := rfl

lemma is_general_of_kind {t : Tile} (h : t.kind = TileKind.General) : t.is_general = true := by
  simp [Tile.is_general, h]

lemma not_general_of_kind {t : Tile} (h : t.kind ≠ TileKind.General) : t.is_general = false := by
  simp [Tile.is_general, h]

lemma is_city_of_kind {t : Tile} (h : t.kind = TileKind.City) : t.is_city = true := by
  simp [Tile.is_city, h]

lemma not_city_of_kind {t : Tile} (h : t.kind ≠ TileKind.City) : t.is_city = false := by
  simp [Tile.is_city, h]

lemma fogTile_visible (p : PlayerId) (t : Tile) (h : t.is_visible_by p = true) :
    fogTile p t = t := by
  unfold fogTile
  rw [if_neg (by rw [h]; simp)]

lemma fogTile_invisible_mountain (p : PlayerId) (t : Tile)
    (hv : t.is_visible_by p = false) (hk : t.kind = TileKind.Mountain) :
    fogTile p t = t := by
  unfold fogTile fogCity fogGeneral
  rw [if_pos (by rw [hv]; simp)]
  rw [Tile.set_units_mountain _ _ (Tile.is_mountain_true.mpr hk)]
  rw [not_general_of_kind (by rw [hk]; intro hc; cases hc), if_neg Bool.false_ne_true]
  rw [not_city_of_kind (by rw [hk]; intro hc; cases hc), if_neg Bool.false_ne_true]

lemma fogTile_invisible_general (p : PlayerId) (t : Tile)
    (hv : t.is_visible_by p = false) (hk : t.kind = TileKind.General) :
    (fogTile p t).kind = TileKind.Open ∧ (fogTile p t).owner = none ∧
    (fogTile p t).units = 0 := by
  have hm : t.is_mountain = false := Tile.is_mountain_false.mpr (by rw [hk]; intro hc; cases hc)
  have hk1 : (t.set_units 0).kind = TileKind.General := by rw [Tile.set_units_kind, hk]
  have hg : fogGeneral (t.set_units 0) = ((t.set_units 0).make_open).set_owner none := by
    unfold fogGeneral
    rw [is_general_of_kind hk1, if_pos rfl]
  have homk : ((t.set_units 0).make_open).is_mountain = false := by
    rw [Tile.is_mountain_false, Tile.make_open_kind]
    intro hc; cases hc
  have hkind : (fogGeneral (t.set_units 0)).kind = TileKind.Open := by
    rw [hg, Tile.set_owner_kind, Tile.make_open_kind]
  unfold fogTile fogCity
  rw [if_pos (by rw [hv]; simp)]
  rw [not_city_of_kind (by rw [hkind]; intro hc; cases hc), if_neg Bool.false_ne_true]
  refine ⟨hkind, ?_, ?_⟩
  · rw [hg, Tile.set_owner_owner_of_not_mountain _ _ homk]
  · rw [hg, Tile.set_owner_units, Tile.make_open_units,
      Tile.set_units_units_not_mountain _ _ hm]

lemma fogTile_invisible_city (p : PlayerId) (t : Tile)
    (hv : t.is_visible_by p = false) (hk : t.kind = TileKind.City) :
    (fogTile p t).kind = TileKind.Mountain ∧ (fogTile p t).owner = t.owner ∧
    (fogTile p t).units = 0 := by
  have hm : t.is_mountain = false := Tile.is_mountain_false.mpr (by rw [hk]; intro hc; cases hc)
  have hk1 : (t.set_units 0).kind = TileKind.City := by rw [Tile.set_units_kind, hk]
  have hg : fogGeneral (t.set_units 0) = t.set_units 0 := by
    unfold fogGeneral
    rw [not_general_of_kind (by rw [hk1]; intro hc; cases hc), if_neg Bool.false_ne_true]
  unfold fogTile fogCity
  rw [if_pos (by rw [hv]; simp), hg]
  rw [is_city_of_kind hk1, if_pos rfl]
  refine ⟨Tile.make_mountain_kind _, ?_, ?_⟩
  · rw [Tile.make_mountain_owner, Tile.set_units_owner]
  · rw [Tile.make_mountain_units, Tile.set_units_units_not_mountain _ _ hm]

lemma fogTile_invisible_open (p : PlayerId) (t : Tile)
    (hv : t.is_visible_by p = false) (hk : t.kind = TileKind.Open) :
    (fogTile p t).kind = TileKind.Open ∧ (fogTile p t).owner = t.owner ∧
    (fogTile p t).units = 0 := by
  have hm : t.is_mountain = false := Tile.is_mountain_false.mpr (by rw [hk]; intro hc; cases hc)
  have hk1 : (t.set_units 0).kind = TileKind.Open := by rw [Tile.set_units_kind, hk]
  have hg : fogGeneral (t.set_units 0) = t.set_units 0 := by
    unfold fogGeneral
    rw [not_general_of_kind (by rw [hk1]; intro hc; cases hc), if_neg Bool.false_ne_true]
  unfold fogTile fogCity
  rw [if_pos (by rw [hv]; simp), hg]
  rw [not_city_of_kind (by rw [hk1]; intro hc; cases hc), if_neg Bool.false_ne_true]
  exact ⟨hk1, Tile.set_units_owner _ _, Tile.set_units_units_not_mountain _ _ hm⟩



/-- C7 (amended).  `Update::filtered` keeps exactly the tile entries
that are dirty for the player or belong to the initial update, and
every kept tile the player cannot see is fogged: units zeroed and a
General turned into an unowned Open tile, a City turned into a Mountain
that keeps its owner field, an Open tile keeping its owner, and a
Mountain entry passed through unchanged.  The owner is cleared only for
Generals, not for every invisible tile as the claim states. -/
theorem update_filtered_spec (u : Update) (p : PlayerId) :
    (∀ it ∈ (u.filtered p).tiles,
      ∃ t, (it.1, t) ∈ u.tiles ∧
        (t.is_dirty_for p = true ∨ u.is_initial_update = true) ∧
        it.2 = fogTile p t ∧
        (t.is_visible_by p = true → it.2 = t) ∧
        (t.is_visible_by p = false →
          (t.kind = TileKind.General →
            it.2.kind = TileKind.Open ∧ it.2.owner = none ∧ it.2.units = 0) ∧
          (t.kind = TileKind.City →
            it.2.kind = TileKind.Mountain ∧ it.2.owner = t.owner ∧ it.2.units = 0) ∧
          (t.kind = TileKind.Open →
            it.2.kind = TileKind.Open ∧ it.2.owner = t.owner ∧ it.2.units = 0) ∧
          (t.kind = TileKind.Mountain → it.2 = t))) ∧
    (∀ i t, (i, t) ∈ u.tiles →
      (t.is_dirty_for p = true ∨ u.is_initial_update = true) →
      (i, fogTile p t) ∈ (u.filtered p).tiles) := by
  constructor
  · intro it hit
    simp only [Update.filtered, List.mem_map, List.mem_filter] at hit
    obtain ⟨it0, ⟨hmem, hpred⟩, hfog⟩ := hit
    have hfst : it.1 = it0.1 := by rw [← hfog]
    have hsnd : it.2 = fogTile p it0.2 := by rw [← hfog]
    refine ⟨it0.2, ?_, Bool.or_eq_true_iff.mp hpred, hsnd, ?_, ?_⟩
    · rw [hfst]
      exact hmem
    · intro hv
      rw [hsnd, fogTile_visible p it0.2 hv]
    · intro hv
      refine ⟨?_, ?_, ?_, ?_⟩
      · intro hk
        obtain ⟨h1, h2, h3⟩ := fogTile_invisible_general p it0.2 hv hk
        rw [hsnd]
        exact ⟨h1, h2, h3⟩
      · intro hk
        obtain ⟨h1, h2, h3⟩ := fogTile_invisible_city p it0.2 hv hk
        rw [hsnd]
        exact ⟨h1, h2, h3⟩
      · intro hk
        obtain ⟨h1, h2, h3⟩ := fogTile_invisible_open p it0.2 hv hk
        rw [hsnd]
        exact ⟨h1, h2, h3⟩
      · intro hk
        rw [hsnd, fogTile_invisible_mountain p it0.2 hv hk]
  · intro i t hmem hpred
    simp only [Update.filtered, List.mem_map, List.mem_filter]
    exact ⟨(i, t), ⟨hmem, Bool.or_eq_true_iff.mpr hpred⟩, rfl⟩

/-- C7 counterexample.  A rendered update of `fogGame` contains a tile
that is dirty for player 2 but invisible to player 2 and owned by
player 1; the filtered update for player 2 keeps `owner = Some(1)` on
it, where the claim demands `owner = None` for every included invisible
tile. -/
theorem update_filtered_owner_counterexample :
    ∃ r, fogGame.get_update = some r ∧ r.2.turn = 3 ∧
      ∃ it, it ∈ (r.2.filtered 2).tiles ∧
        it.2.is_visible_by 2 = false ∧ it.2.owner = some 1 := by
  refine ⟨_, rfl, rfl, ⟨(0, fogTile 2 (tileOf (some 1) 5 TileKind.Open [1] [2])), ?_, ?_, ?_⟩⟩
  · decide
  · decide
  · decide

/-- Witness for `update_filtered_spec` on `plainUpdate`. -/
theorem update_filtered_spec_witness :
    ((0, tileOf (some 1) 5 TileKind.Open [1, 2] [1, 2]) ∈ plainUpdate.tiles ∧
      (tileOf (some 1) 5 TileKind.Open [1, 2] [1, 2]).is_dirty_for 1 = true) ∧
    (0, fogTile 1 (tileOf (some 1) 5 TileKind.Open [1, 2] [1, 2]))
      ∈ (plainUpdate.filtered 1).tiles :=
  ⟨⟨by decide, by decide⟩,
   (update_filtered_spec plainUpdate 1).2 0
     (tileOf (some 1) 5 TileKind.Open [1, 2] [1, 2]) (by decide) (Or.inl (by decide))⟩


end Generals
